import Mathlib

/-!
Verification of the spreadsheet-to-static-site generator.

The repository contains three near-duplicate pipelines (build.py, build_sites.py,
generate_sites.py) that read a zipped XML spreadsheet, resolve shared strings,
decode worksheet rows, map rows to records and render HTML pages.  This file
gives a shallow embedding of the functions those pipelines are built from and
proves or refutes the specified properties about them.

XML documents are modelled post-parse: the sharedStrings part as a list of
entries, each entry the list of the text of its t elements in document order;
a worksheet row as a list of cells carrying their r attribute, t attribute and
the text of their v element when present.
-/

set_option linter.unusedVariables false
set_option maxRecDepth 8192

namespace PyModel

/-- ASCII whitespace stripped by Python str.strip() and by float()/int() parsing.
(Python additionally strips some rarer Unicode space characters; they do not occur
in this data and are not modelled.) -/
def isPySpace (c : Char) : Bool :=
  c = ' ' || c.toNat = 9 || c.toNat = 10 || c.toNat = 13 || c.toNat = 11 || c.toNat = 12

/-- Models str.lstrip restricted to a character predicate. -/
def lstripBy (p : Char → Bool) (l : List Char) : List Char := l.dropWhile p

/-- Models str.rstrip restricted to a character predicate. -/
def rstripBy (p : Char → Bool) (l : List Char) : List Char := (l.reverse.dropWhile p).reverse

/-- Models str.strip restricted to a character predicate. -/
def stripBy (p : Char → Bool) (l : List Char) : List Char := rstripBy p (lstripBy p l)

/-- Models str.strip() with no argument (whitespace at both ends). -/
def pyStrip (s : String) : String := String.mk (stripBy isPySpace s.toList)

def digitVal (c : Char) : Nat := c.toNat - 48

/-- Consume a run of decimal digits optionally grouped by single underscores, as in
Python numeric literals accepted by int() and float(): an underscore must stand
between two digits.  Returns the accumulated value, the number of digits seen and
the unconsumed rest. -/
def digitsUGo (acc cnt : Nat) : List Char → (Nat × Nat × List Char)
  | [] => (acc, cnt, [])
  | [c] =>
    if c.isDigit then (acc * 10 + digitVal c, cnt + 1, []) else (acc, cnt, [c])
  | c :: d :: ds =>
    if c.isDigit then digitsUGo (acc * 10 + digitVal c) (cnt + 1) (d :: ds)
    else if c = '_' && d.isDigit then digitsUGo (acc * 10 + digitVal d) (cnt + 1) ds
    else (acc, cnt, c :: d :: ds)

/-- A digit run must begin with a digit (no leading underscore). -/
def digitsU : List Char → Option (Nat × Nat × List Char)
  | [] => none
  | c :: cs => if c.isDigit then some (digitsUGo (digitVal c) 1 cs) else none

/-- Models Python int(str) on base-10 strings: surrounding whitespace, an optional
sign, then digits with optional single underscore separators; none models the
ValueError raised on anything else. -/
def pyInt (s : String) : Option Int :=
  let l := stripBy isPySpace s.toList
  let signSplit : Bool × List Char :=
    match l with
    | '+' :: t => (false, t)
    | '-' :: t => (true, t)
    | t => (false, t)
  match digitsU signSplit.2 with
  | some (v, _, []) => some (if signSplit.1 then -(v : Int) else (v : Int))
  | _ => none

/-- Models Python list indexing lst[i] for int i: negative indices count from the
end; none models the IndexError on an out-of-range index. -/
def pyListGet (l : List String) (i : Int) : Option String :=
  if 0 ≤ i then l[i.toNat]?
  else
    let j : Int := (l.length : Int) + i
    if 0 ≤ j then l[j.toNat]? else none

/-- The result of Python float(str): a finite value (kept exactly as a rational; the
final IEEE-754 rounding of the decimal literal is not modelled, which does not change
which strings parse, nor the sign or finiteness of the result), an infinity or nan. -/
inductive PyFloat
  | finite (q : ℚ)
  | inf (neg : Bool)
  | nan
deriving DecidableEq, Repr

/-- Decimal values of at least this magnitude convert to an IEEE double infinity:
2 ^ 1024 - 2 ^ 970 is the smallest value that rounds up to 2 ^ 1024 under
round-to-nearest, ties-to-even. -/
def floatOvf : ℚ := ((2 ^ 1024 - 2 ^ 970 : Nat) : ℚ)

/-- Assemble a parsed decimal literal: integer digits, fraction digits with their
count, a signed exponent and the sign; the value is
(ival·10^fcnt + fval) / 10^fcnt · 10^ex, and magnitudes beyond the double range
give an infinity, as float(str) does. -/
def mkFloat (neg : Bool) (ival fval fcnt : Nat) (ex : Int) : PyFloat :=
  let m : Nat := ival * 10 ^ fcnt + fval
  let mag : ℚ :=
    if 0 ≤ ex then mkRat ((m * 10 ^ ex.toNat : Nat) : Int) (10 ^ fcnt)
    else mkRat (m : Int) (10 ^ fcnt * 10 ^ (-ex).toNat)
  if floatOvf ≤ mag then PyFloat.inf neg
  else PyFloat.finite (if neg then -mag else mag)

/-- Parse the numeric body of a float literal (sign already removed):
digits [ . digits ] [ (e | E) [sign] digits ], at least one digit overall,
nothing left over. -/
def pyFloatNum (neg : Bool) (l : List Char) : Option PyFloat :=
  let ipart : Nat × Nat × List Char :=
    match digitsU l with
    | some t => t
    | none => (0, 0, l)
  let fpart : Nat × Nat × List Char :=
    match ipart.2.2 with
    | '.' :: rest =>
      (match digitsU rest with
       | some t => t
       | none => (0, 0, rest))
    | _ => (0, 0, ipart.2.2)
  if ipart.2.1 + fpart.2.1 = 0 then none
  else
    match fpart.2.2 with
    | [] => some (mkFloat neg ipart.1 fpart.1 fpart.2.1 0)
    | e :: r3 =>
      if e = 'e' || e = 'E' then
        let esplit : Bool × List Char :=
          match r3 with
          | '+' :: t => (false, t)
          | '-' :: t => (true, t)
          | t => (false, t)
        match digitsU esplit.2 with
        | some (ev, _, []) =>
          some (mkFloat neg ipart.1 fpart.1 fpart.2.1 (if esplit.1 then -(ev : Int) else (ev : Int)))
        | _ => none
      else none

/-- Models Python float(str): whitespace stripped, an optional sign, then a
case-insensitive inf / infinity / nan or a decimal literal; none models the
ValueError raised on anything else. -/
def pyFloat (s : String) : Option PyFloat :=
  let l := stripBy isPySpace s.toList
  let signSplit : Bool × List Char :=
    match l with
    | '+' :: t => (false, t)
    | '-' :: t => (true, t)
    | t => (false, t)
  let low := signSplit.2.map Char.toLower
  if low = "inf".toList || low = "infinity".toList then some (PyFloat.inf signSplit.1)
  else if low = "nan".toList then some PyFloat.nan
  else pyFloatNum signSplit.1 signSplit.2

/-- Truncation toward zero: the behaviour of Python int() on a finite float. -/
def truncQ (q : ℚ) : Int :=
  if 0 ≤ q.num then ((q.num.toNat / q.den : Nat) : Int) else -((((-q.num).toNat / q.den : Nat)) : Int)

/-- Round to the nearest integer, ties to even. -/
def roundHalfEven (x : ℚ) : Int :=
  let f := x.floor
  let r := x - (f : ℚ)
  if mkRat 1 2 < r then f + 1
  else if r < mkRat 1 2 then f
  else if f % 2 = 0 then f else f + 1

/-- Models Python format(x, ".1f") on a finite value: round half-to-even at one
decimal place.  (Python rounds the IEEE double; the exact decimal value is rounded
here, and the sign of a negative zero is not preserved.) -/
def fmtFixed1 (q : ℚ) : String :=
  let neg := q < 0
  let n := (roundHalfEven ((if neg then -q else q) * 10)).toNat
  (if neg then "-" else "") ++ toString (n / 10) ++ "." ++ toString (n % 10)

/-- Models the f-string conversion f"[x]:.1f" applied to any float value. -/
def formatDot1 : PyFloat → String
  | PyFloat.finite q => fmtFixed1 q
  | PyFloat.inf b => if b then "-inf" else "inf"
  | PyFloat.nan => "nan"

/-- Models html.escape (quote=True) on one character: the five markup characters
become entity references.  Charwise mapping agrees with the sequential
str.replace calls of the library function. -/
def escChar (c : Char) : List Char :=
  if c = '&' then "&amp;".toList
  else if c = '<' then "&lt;".toList
  else if c = '>' then "&gt;".toList
  else if c = '"' then "&quot;".toList
  else if c.toNat = 39 then "&#x27;".toList
  else [c]

/-- Models html.escape(s, quote=True). -/
def pyHtmlEscape (s : String) : String := String.mk (s.toList.map escChar).flatten

/-- Models the get(index) helpers of parse_store and row_to_store:
row[index] when the index is in range, the empty string otherwise. -/
def getCol (row : List String) (i : Nat) : String := row.getD i ""

/-- Replace every maximal run of characters satisfying p by a single dash: the
effect of re.sub with a one-or-more character-class pattern and replacement "-".
The Boolean records whether the previous character was part of a run. -/
def sepAux (p : Char → Bool) : Bool → List Char → List Char
  | _, [] => []
  | inRun, c :: cs =>
    if p c then (if inRun then sepAux p true cs else '-' :: sepAux p true cs)
    else c :: sepAux p false cs

def pySubRuns (p : Char → Bool) (l : List Char) : List Char := sepAux p false l

/-- Boolean test that the first list is an initial segment of the second. -/
def leadEq : List Char → List Char → Bool
  | [], _ => true
  | _ :: _, [] => false
  | a :: as, b :: bs => a = b && leadEq as bs

/-- Boolean substring test on character lists. -/
def hasSub (needle : List Char) : List Char → Bool
  | [] => leadEq needle []
  | c :: cs => leadEq needle (c :: cs) || hasSub needle cs

end PyModel

namespace GenSites

open PyModel

/-- A worksheet cell as parsed from the XML: the r attribute (the cell reference,
"" when absent, as cell.get("r", "") yields), the t attribute, and the text of the
v child element, none when the cell has no v element.  (A v element whose text node
is empty is normalised to the empty string.) -/
structure Cell where
  r : String
  t : Option String
  v : Option String
deriving DecidableEq, Repr

def isUpperAZ (c : Char) : Bool := 'A' ≤ c && c ≤ 'Z'

/-- Models generate_sites.column_index: the leading run of capital letters of the
cell reference read as a bijective base-26 numeral, or 1 when the reference does
not begin with a capital letter (re.match finds no match). -/
def columnIndex (cellRef : String) : Nat :=
  let letters := cellRef.toList.takeWhile isUpperAZ
  if letters = [] then 1
  else letters.foldl (fun idx ch => idx * 26 + (ch.toNat - 'A'.toNat + 1)) 0

/-- Models generate_sites.load_shared_strings: each si entry contributes the
concatenation of the text of all of its t descendants, in document order. -/
def loadSharedStrings (sst : List (List String)) : List String :=
  sst.map (fun runs => String.join runs)

/-- Models the cell loop of generate_sites.load_sheet_rows: current_col tracks the
next column to fill; a cell with no v element appends "" without consulting its
reference; otherwise the value (resolved through the shared-string list when the
cell type is s) is placed after padding with "" up to the referenced column.
none models the uncaught ValueError / IndexError of int() / list indexing while
resolving a shared string. -/
def decodeCells (shared : List String) (currentCol : Nat) : List Cell → Option (List String)
  | [] => some []
  | c :: cs =>
    match c.v with
    | none => (decodeCells shared currentCol cs).map (fun rest => "" :: rest)
    | some vtext =>
      let resolved : Option String :=
        if c.t = some "s" then (pyInt vtext).bind (pyListGet shared) else some vtext
      match resolved with
      | none => none
      | some val =>
        let idx := columnIndex c.r
        (decodeCells shared (max currentCol idx + 1) cs).map
          (fun rest => List.replicate (idx - currentCol) "" ++ val :: rest)

/-- One row of generate_sites.load_sheet_rows (current_col starts at 1). -/
def decodeRow (shared : List String) (cells : List Cell) : Option (List String) :=
  decodeCells shared 1 cells

/-- Models generate_sites.safe_float: float(value) with TypeError / ValueError
caught to None.  float(str) raises only those two, so no exception escapes. -/
def safeFloat (s : String) : Option PyFloat := pyFloat s

/-- Outcome of a Python int coercion helper: a missing value, a value, or an
uncaught exception. -/
inductive IntRes
  | absent
  | val (n : Nat)
  | raises
deriving DecidableEq, Repr

/-- Models generate_sites.safe_int: abs(int(float(value))).  A parse failure or a
nan raises ValueError, which the except clause catches (absent); an infinite value
makes int() raise OverflowError, which except (TypeError, ValueError) does not
catch, so the exception escapes (raises). -/
def safeInt (s : String) : IntRes :=
  match pyFloat s with
  | none => IntRes.absent
  | some (PyFloat.finite q) => IntRes.val (truncQ q).natAbs
  | some (PyFloat.inf _) => IntRes.raises
  | some PyFloat.nan => IntRes.absent

/-- Approximates the Unicode word-character class of the regex metacharacter w used
by generate_sites.slugify, for the character ranges present in this repository's
data: ASCII alphanumerics, the underscore and the CJK unified ideographs.  Word
characters of other scripts are not modelled. -/
def wordChar (c : Char) : Bool :=
  c.isAlphanum || c = '_' || (0x4e00 ≤ c.toNat && c.toNat ≤ 0x9fff)

/-- Models generate_sites.slugify: strip and lowercase, non-word runs to "-",
dash runs collapsed, ends trimmed of dashes, fallback "store".  Note: no length
truncation occurs here. -/
def slugify (name : String) : String :=
  let t1 := (pyStrip name).toList.map Char.toLower
  let t2 := pySubRuns (fun c => !(wordChar c)) t1
  let t3 := pySubRuns (fun c => c = '-') t2
  let t4 := stripBy (fun c => c = '-') t3
  if t4 = [] then "store" else String.mk t4

def DEFAULT_AVATAR : String := "https://ssl.gstatic.com/local/servicebusiness/default_user.png"

def DEFAULT_HERO : String := "https://ssl.gstatic.com/local/generic/default_logo.png"

/-- The Store dataclass of generate_sites. -/
structure Store where
  map_url : String
  name : String
  rating : Option PyFloat
  review_count : Option Nat
  category : String
  address : String
  status : String
  closing_time : String
  phone : String
  hero_image : String
  avatar_image : String
  review_snippet : String
  slug : String
deriving DecidableEq, Repr

/-- Models generate_sites.row_to_store.  some none is a skipped row (too short, or
empty name); none models the uncaught OverflowError escaping from safe_int when the
review-count cell parses to an infinite float. -/
def rowToStore (row : List String) : Option (Option Store) :=
  if row.length < 2 then some Option.none
  else
    let name := pyStrip (getCol row 5)
    if name = "" then some Option.none
    else
      match safeInt (pyStrip (getCol row 7)) with
      | IntRes.raises => Option.none
      | rc =>
        let hero := pyStrip (getCol row 16)
        let avatar := pyStrip (getCol row 17)
        some (some
          { map_url := pyStrip (getCol row 4)
            name := name
            rating := safeFloat (pyStrip (getCol row 6))
            review_count := match rc with
              | IntRes.val n => some n
              | _ => none
            category := pyStrip (getCol row 8)
            address := pyStrip (getCol row 11)
            status := pyStrip (getCol row 12)
            closing_time := pyStrip (getCol row 13)
            phone := pyStrip (getCol row 15)
            hero_image := if hero = "" then DEFAULT_HERO else hero
            avatar_image := if avatar = "" then DEFAULT_AVATAR else avatar
            review_snippet :=
              pyStrip (String.join (((row.drop 18).filter (fun part => part ≠ "")).map pyStrip))
            slug := slugify name })

/-- Models the list comprehension [row_to_store(row) for row in rows]; an exception
in any element aborts the whole comprehension. -/
def mapRows : List (List String) → Option (List (Option Store))
  | [] => some []
  | r :: rs =>
    match rowToStore r, mapRows rs with
    | some o, some os => some (o :: os)
    | _, _ => Option.none

/-- Models generate_sites.load_stores on already-decoded rows: drop the header row,
map each data row, keep the non-skipped results. -/
def loadStores (rows : List (List String)) : Option (List Store) :=
  (mapRows (rows.drop 1)).map (fun l => l.filterMap id)

end GenSites

namespace Build

open PyModel

/-- The character class [a-z0-9 CJK] of build.slugify (after lowercasing). -/
def allowedChar (c : Char) : Bool :=
  ('a' ≤ c && c ≤ 'z') || ('0' ≤ c && c ≤ '9') || (0x4e00 ≤ c.toNat && c.toNat ≤ 0x9fff)

/-- Models build.slugify: lowercase; runs outside the allowed class to "-"; dash
runs collapsed and both ends trimmed; truncation to 60 characters with a re-trim
of any trailing dash the cut exposes; fallback "store" when empty. -/
def slugify (text : String) : String :=
  let t1 := text.toList.map Char.toLower
  let t2 := pySubRuns (fun c => !(allowedChar c)) t1
  let t3 := stripBy (fun c => c = '-') (pySubRuns (fun c => c = '-') t2)
  let t4 := rstripBy (fun c => c = '-') (t3.take 60)
  if t4 = [] then "store" else String.mk t4

/-- Models build.load_strings: one list entry per t element of the whole
sharedStrings document, in document order.  A multi-run entry is therefore split
into several entries instead of being joined. -/
def loadStrings (sst : List (List String)) : List String := sst.flatten

/-- Models the cell loop of build.load_rows: cells are appended in document order
with no column padding; a missing v element gives ""; a shared-string cell with
empty v text gives "" without a lookup, otherwise the shared-string list is
indexed (none models the uncaught ValueError / IndexError). -/
def decodeCellsB (strings : List String) : List GenSites.Cell → Option (List String)
  | [] => some []
  | c :: cs =>
    let value : String :=
      match c.v with
      | none => ""
      | some t => t
    let resolved : Option String :=
      if c.t = some "s" then
        (if value = "" then some "" else (pyInt value).bind (pyListGet strings))
      else some value
    match resolved, decodeCellsB strings cs with
    | some v, some rest => some (v :: rest)
    | _, _ => Option.none

/-- The record dictionary built by build.parse_store. -/
structure StoreB where
  name : String
  slug : String
  map_url : String
  rating : String
  review_count : String
  category : String
  address : String
  status : String
  closing : String
  phone : String
  image_url : String
  default_avatar : String
  snippet : String
deriving DecidableEq, Repr

/-- Models build.parse_store.  Every row yields a record: an empty or http-like
name is replaced by the fixed placeholder, it never causes a skip.  none models
the uncaught OverflowError / ValueError of int() when the review value parses to
an infinite or nan float. -/
def parseStore (row : List String) : Option StoreB :=
  match pyFloat (getCol row 3) with
  | some (PyFloat.inf _) => Option.none
  | some PyFloat.nan => Option.none
  | rv =>
    let name0 := getCol row 1
    let name := if name0 = "" || name0.startsWith "http" then "未命名水電行" else name0
    let rating :=
      match pyFloat (getCol row 2) with
      | none => "N/A"
      | some f => formatDot1 f
    let reviewCount :=
      match rv with
      | some (PyFloat.finite q) => toString (truncQ q).natAbs
      | _ => ""
    some
      { name := name
        slug := slugify name
        map_url := getCol row 0
        rating := rating
        review_count := reviewCount
        category := getCol row 4
        address := getCol row 7
        status := getCol row 8
        closing := String.mk (lstripBy (fun c => c = '·' || c = ' ') (getCol row 9).toList)
        phone := getCol row 11
        image_url := getCol row 12
        default_avatar := getCol row 13
        snippet := pyStrip ((String.join (row.drop 14)).replace "_x000D_" " ") }

/-- Models the list comprehension [parse_store(row) for row in rows[1:]] of
build.main: no filtering, every data row yields a record. -/
def parseStores : List (List String) → Option (List StoreB)
  | [] => some []
  | r :: rs =>
    match parseStore r, parseStores rs with
    | some s, some ss => some (s :: ss)
    | _, _ => Option.none

end Build

namespace BuildSites

open PyModel

/-- Models build_sites.load_shared_strings: one entry per si element, joining the
text of all its t descendants in document order. -/
def loadSharedStrings (sst : List (List String)) : List String :=
  sst.map (fun runs => String.join runs)

/-- Models build_sites.to_float. -/
def toFloat (s : String) : Option PyFloat := pyFloat s

/-- Models build_sites.to_int: int(abs(f)) when to_float succeeded.  int() of an
infinite value raises OverflowError and of a nan raises ValueError, and neither is
caught here, so both escape (raises). -/
def toInt (s : String) : GenSites.IntRes :=
  match toFloat s with
  | none => GenSites.IntRes.absent
  | some (PyFloat.finite q) => GenSites.IntRes.val (truncQ q).natAbs
  | some _ => GenSites.IntRes.raises

/-- Models the format expression shop-[index]:02d of build_sites.slugify. -/
def fmt02 (i : Nat) : String := if i < 10 then "0" ++ toString i else toString i

/-- Models build_sites.slugify: runs outside ASCII alphanumerics to "-", ends
trimmed of dashes, lowercased; when empty, the fallback names the shop by its
running index.  Note: no length truncation occurs here. -/
def slugify (name : String) (index : Nat) : String :=
  let base := String.mk
    ((stripBy (fun c => c = '-') (pySubRuns (fun c => !(c.isAlphanum)) name.toList)).map Char.toLower)
  if base = "" then "shop-" ++ fmt02 index else base

end BuildSites

namespace GenSites

/-- Models generate_sites.PAGE_TEMPLATE.format applied to its four keyword
arguments, as plain concatenation (str.format does not reprocess inserted
values). -/
def pageTemplate (title description content assetPre : String) : String :=
  "<!doctype html>\n<html lang=\x27zh-Hant\x27>\n<head>\n  <meta charset=\x27utf-8\x27>\n  <meta name=\x27viewport\x27 content=\x27width=device-width, initial-scale=1\x27>\n  <title>"
  ++ title
  ++ "</title>\n  <meta name=\x27description\x27 content=\x27"
  ++ description
  ++ "\x27>\n  <link rel=\x27stylesheet\x27 href=\x27"
  ++ assetPre
  ++ "assets/site.css\x27>\n</head>\n<body>\n  <nav class=\x27topbar\x27>\n    <div class=\x27brand\x27>士林水電行資料集</div>\n    <a class=\x27topbar__link\x27 href=\x27https://github.com/\x27>GitHub Pages</a>\n  </nav>\n  <main class=\x27container\x27>\n    "
  ++ content
  ++ "\n  </main>\n  <footer class=\x27footer\x27>\n    以 Excel 自動生成的靜態網站，部署至 GitHub Pages 即可瀏覽。\n  </footer>\n</body>\n</html>\n"

/-- The content keyword argument of the PAGE_TEMPLATE.format call inside
generate_sites.render_detail. -/
def renderDetailContent (s : Store) (rating reviews reviewSection : String) : String :=
  "\n        <article class=\x27detail\x27>\n          <header class=\x27detail__header\x27>\n            <img src=\x27"
  ++ PyModel.pyHtmlEscape s.hero_image
  ++ "\x27 alt=\x27"
  ++ PyModel.pyHtmlEscape s.name
  ++ " 店面圖片\x27 class=\x27hero hero--large\x27>\n            <div>\n              <p class=\x27kicker\x27>"
  ++ PyModel.pyHtmlEscape s.category
  ++ "</p>\n              <h1>"
  ++ PyModel.pyHtmlEscape s.name
  ++ "</h1>\n              <p class=\x27meta\x27>評分 "
  ++ rating
  ++ " "
  ++ reviews
  ++ "</p>\n            </div>\n          </header>\n          <section class=\x27info\x27>\n            <h2>店家資訊</h2>\n            <ul>\n              <li>📍 地址："
  ++ PyModel.pyHtmlEscape s.address
  ++ "</li>\n              <li>⏰ 營業資訊："
  ++ PyModel.pyHtmlEscape s.status
  ++ " "
  ++ PyModel.pyHtmlEscape s.closing_time
  ++ "</li>\n              <li>☎️ 電話：<a href=\x27tel:"
  ++ PyModel.pyHtmlEscape s.phone
  ++ "\x27>"
  ++ PyModel.pyHtmlEscape s.phone
  ++ "</a></li>\n              <li>🗺️ 地圖：<a href=\x27"
  ++ PyModel.pyHtmlEscape s.map_url
  ++ "\x27 target=\x27_blank\x27 rel=\x27noopener\x27>在 Google 地圖開啟</a></li>\n            </ul>\n          </section>\n          <section class=\x27info\x27>\n            <h2>顧客評論摘錄</h2>\n            "
  ++ reviewSection
  ++ "\n          </section>\n          <section class=\x27info avatar\x27>\n            <img src=\x27"
  ++ PyModel.pyHtmlEscape s.avatar_image
  ++ "\x27 alt=\x27"
  ++ PyModel.pyHtmlEscape s.name
  ++ " 的代表頭像\x27>\n            <div>\n              <p>網站由 Excel 資料自動生成，便於透過 GitHub Pages 快速發布。</p>\n              <p><a class=\x27button\x27 href=\x27../index.html\x27>返回列表</a></p>\n            </div>\n          </section>\n        </article>\n        "

/-- Models generate_sites.render_detail.  The body fields pass through
html.escape; the title and the meta description interpolate store.name raw. -/
def renderDetail (s : Store) : String :=
  let rating :=
    match s.rating with
    | some f => PyModel.formatDot1 f
    | none => "N/A"
  let reviews :=
    match s.review_count with
    | some n => "（" ++ toString n ++ " 則評論）"
    | none => ""
  let reviewSection :=
    if s.review_snippet ≠ "" then
      "<p class=\x27snippet\x27>" ++ PyModel.pyHtmlEscape s.review_snippet ++ "</p>"
    else "<p class=\x27snippet\x27>尚無評論摘錄</p>"
  pageTemplate (s.name ++ "｜士林水電行指南") (s.name ++ " 的服務資訊與聯絡方式。")
    (renderDetailContent s rating reviews reviewSection) "../"

end GenSites

namespace GenSites

/-- The card f-string of the loop inside generate_sites.render_index. -/
def renderIndexCard (s : Store) (rating reviews snippet : String) : String :=
  "\n            <article class=\x27card\x27>\n              <img src=\x27"
  ++ PyModel.pyHtmlEscape s.hero_image
  ++ "\x27 alt=\x27"
  ++ PyModel.pyHtmlEscape s.name
  ++ " 店面圖片\x27 class=\x27hero\x27>\n              <div class=\x27card__body\x27>\n                <h2>"
  ++ PyModel.pyHtmlEscape s.name
  ++ "</h2>\n                <p class=\x27meta\x27>"
  ++ PyModel.pyHtmlEscape s.category
  ++ " · 評分 "
  ++ rating
  ++ " "
  ++ reviews
  ++ "</p>\n                <p class=\x27address\x27>📍 "
  ++ PyModel.pyHtmlEscape s.address
  ++ "</p>\n                <p class=\x27status\x27>"
  ++ PyModel.pyHtmlEscape s.status
  ++ " "
  ++ PyModel.pyHtmlEscape s.closing_time
  ++ "</p>\n                <p class=\x27snippet\x27>"
  ++ snippet
  ++ "</p>\n                <div class=\x27actions\x27>\n                  <a class=\x27button\x27 href=\x27stores/"
  ++ s.slug
  ++ ".html\x27>查看詳情</a>\n                  <a class=\x27button button--ghost\x27 href=\x27"
  ++ PyModel.pyHtmlEscape s.map_url
  ++ "\x27 target=\x27_blank\x27 rel=\x27noopener\x27>Google 地圖</a>\n                </div>\n              </div>\n            </article>\n            "

/-- Models generate_sites.render_index: one card per store — the snippet falls
back to the fixed placeholder before being escaped — joined with newlines and
wrapped in PAGE_TEMPLATE with the fixed title, description and an empty asset
path adjustment. -/
def renderIndex (stores : List Store) : String :=
  let cards := stores.map (fun s =>
    let rating :=
      match s.rating with
      | some f => PyModel.formatDot1 f
      | none => "N/A"
    let reviews :=
      match s.review_count with
      | some n => "（" ++ toString n ++ " 則評論）"
      | none => ""
    let snippet :=
      PyModel.pyHtmlEscape (if s.review_snippet = "" then "尚無評論摘錄" else s.review_snippet)
    renderIndexCard s rating reviews snippet)
  pageTemplate "士林水電行指南" "從 Excel 產生的水電行清單，點擊卡片可瀏覽各店獨立頁面。"
    (String.intercalate "\n" cards) ""

/-- The STYLE_CSS stylesheet constant of generate_sites.py. -/
def STYLE_CSS : String :=
  "\n:root \x7b\n  --bg: #0e1117;\n  --card: #161b22;\n  --text: #e6edf3;\n  --muted: #9ba3b4;\n  --accent: #8dd0ff;\n  --border: #30363d;\n  --shadow: 0 10px 30px rgba(0,0,0,0.35);\n  font-family: \"Noto Sans TC\", \"Inter\", \"Segoe UI\", system-ui, sans-serif;\n\x7d\n\n* \x7b box-sizing: border-box; \x7d\nbody \x7b\n  margin: 0;\n  background: var(--bg);\n  color: var(--text);\n\x7d\n\n.topbar \x7b\n  display: flex;\n  justify-content: space-between;\n  align-items: center;\n  padding: 16px 24px;\n  border-bottom: 1px solid var(--border);\n  background: rgba(12,16,22,0.9);\n  position: sticky;\n  top: 0;\n  z-index: 5;\n  backdrop-filter: blur(10px);\n\x7d\n\n.brand \x7b font-weight: 700; letter-spacing: 0.02em; \x7d\n.topbar__link \x7b color: var(--accent); text-decoration: none; \x7d\n\n.container \x7b\n  padding: 32px 24px 80px;\n  max-width: 1200px;\n  margin: auto;\n  display: grid;\n  grid-template-columns: repeat(auto-fit, minmax(280px, 1fr));\n  gap: 20px;\n\x7d\n\n.card, .detail \x7b\n  background: var(--card);\n  border: 1px solid var(--border);\n  border-radius: 16px;\n  box-shadow: var(--shadow);\n  overflow: hidden;\n\x7d\n\n.card__body \x7b padding: 16px; display: flex; flex-direction: column; gap: 6px; \x7d\n.card h2 \x7b margin: 0; \x7d\n.hero \x7b\n  width: 100%;\n  height: 180px;\n  object-fit: cover;\n  background: #111;\n\x7d\n.hero--large \x7b height: 260px; \x7d\n\n.meta \x7b color: var(--muted); font-size: 14px; \x7d\n.address, .status \x7b margin: 0; font-size: 15px; \x7d\n.snippet \x7b color: var(--muted); \x7d\n.actions \x7b display: flex; gap: 8px; margin-top: 6px; flex-wrap: wrap; \x7d\n.button \x7b\n  display: inline-block;\n  padding: 8px 12px;\n  border-radius: 10px;\n  background: var(--accent);\n  color: #0a0c10;\n  font-weight: 600;\n  text-decoration: none;\n  box-shadow: 0 8px 18px rgba(141,208,255,0.25);\n\x7d\n.button--ghost \x7b background: transparent; color: var(--accent); border: 1px solid var(--accent); box-shadow: none; \x7d\n\n.footer \x7b\n  padding: 24px;\n  text-align: center;\n  color: var(--muted);\n  border-top: 1px solid var(--border);\n  background: #0a0c10;\n\x7d\n\n.detail \x7b grid-column: 1 / -1; padding: 0 0 24px; \x7d\n.detail__header \x7b display: grid; grid-template-columns: 1fr; gap: 12px; \x7d\n.detail__header h1 \x7b margin: 4px 0; \x7d\n.kicker \x7b color: var(--muted); margin: 0; text-transform: uppercase; letter-spacing: 0.08em; \x7d\n.info \x7b padding: 0 24px; margin-top: 12px; \x7d\n.info ul \x7b list-style: none; padding: 0; margin: 0; display: grid; gap: 6px; \x7d\n.info li \x7b color: var(--muted); \x7d\n.avatar \x7b display: grid; grid-template-columns: 96px 1fr; align-items: center; gap: 12px; \x7d\n.avatar img \x7b width: 96px; height: 96px; border-radius: 50%; object-fit: cover; border: 1px solid var(--border); \x7d\n\n@media (min-width: 820px) \x7b\n  .detail__header \x7b grid-template-columns: 1.1fr 1fr; align-items: center; \x7d\n  .container \x7b grid-template-columns: repeat(auto-fit, minmax(320px, 1fr)); \x7d\n\x7d\n"

def hexDigit (n : Nat) : Char := if n < 10 then Char.ofNat (48 + n) else Char.ofNat (87 + n)

/-- Models the string escaping of json.dumps with ensure_ascii=False: backslash,
the double quote and control characters below 0x20 are escaped (named escapes for
backspace, tab, newline, form feed, carriage return; lowercase u-escapes for the
rest); everything else, non-ASCII included, passes through unchanged. -/
def jsonEscChar (c : Char) : List Char :=
  if c = '\\' then [ '\\', '\\' ]
  else if c = '"' then [ '\\', '"' ]
  else if c.toNat = 8 then [ '\\', 'b' ]
  else if c.toNat = 9 then [ '\\', 't' ]
  else if c.toNat = 10 then [ '\\', 'n' ]
  else if c.toNat = 12 then [ '\\', 'f' ]
  else if c.toNat = 13 then [ '\\', 'r' ]
  else if c.toNat < 32 then [ '\\', 'u', '0', '0', hexDigit (c.toNat / 16), hexDigit (c.toNat % 16) ]
  else [c]

/-- The JSON rendering of a Python string value. -/
def jsonStr (s : String) : String :=
  "\"" ++ String.mk (s.toList.map jsonEscChar).flatten ++ "\""

/-- Decimal digits of the fractional part rem/den, most significant first,
stopping when the remainder vanishes (so no trailing zeros); the fuel bounds the
loop and covers every value the float parser produces. -/
def fracDigitsAux : Nat → Nat → Nat → List Char
  | _, _, 0 => []
  | rem, den, fuel + 1 =>
    if rem = 0 then []
    else Char.ofNat (48 + rem * 10 / den) :: fracDigitsAux (rem * 10 % den) den fuel

/-- Decimal rendering of a finite float value the way repr / json.dumps print the
short decimal values occurring in this data: sign, integer part, a dot, and the
fractional digits (at least "0", as repr always keeps one).  Python's
shortest-round-trip digit selection on the IEEE double and its switch to
scientific notation for very large or very small magnitudes are not modelled. -/
def floatRepr (q : ℚ) : String :=
  let n := q.num.natAbs
  let frac := fracDigitsAux (n % q.den) q.den 1100
  (if q < 0 then "-" else "") ++ toString (n / q.den) ++ "." ++
    (if frac = [] then "0" else String.mk frac)

/-- The JSON value of the Optional[float] rating field: null when absent;
json.dumps writes infinities and nan as Infinity / -Infinity / NaN. -/
def jsonRating : Option PyModel.PyFloat → String
  | none => "null"
  | some (PyModel.PyFloat.finite q) => floatRepr q
  | some (PyModel.PyFloat.inf b) => if b then "-Infinity" else "Infinity"
  | some PyModel.PyFloat.nan => "NaN"

/-- The asdict(store) key-value pairs in dataclass field order, values rendered
as JSON. -/
def storeJsonFields (s : Store) : List (String × String) :=
  [("map_url", jsonStr s.map_url), ("name", jsonStr s.name),
   ("rating", jsonRating s.rating),
   ("review_count", match s.review_count with
     | some n => toString n
     | none => "null"),
   ("category", jsonStr s.category), ("address", jsonStr s.address),
   ("status", jsonStr s.status), ("closing_time", jsonStr s.closing_time),
   ("phone", jsonStr s.phone), ("hero_image", jsonStr s.hero_image),
   ("avatar_image", jsonStr s.avatar_image), ("review_snippet", jsonStr s.review_snippet),
   ("slug", jsonStr s.slug)]

/-- Models json.dumps([asdict(s) for s in stores], ensure_ascii=False, indent=2):
two-space indentation per level, key-colon-space separators, comma-newline between
items, and "[]" for the empty list. -/
def storesJson (stores : List Store) : String :=
  if stores = [] then "[]"
  else
    "[\n" ++ String.intercalate ",\n" (stores.map (fun s =>
      "  \x7b\n" ++ String.intercalate ",\n" ((storeJsonFields s).map (fun kv =>
        "    " ++ jsonStr kv.1 ++ ": " ++ kv.2)) ++ "\n  \x7d")) ++ "\n]"

/-- The row loop of generate_sites.load_sheet_rows over the whole worksheet. -/
def loadSheetRowsAux (shared : List String) : List (List Cell) → Option (List (List String))
  | [] => some []
  | r :: rs =>
    match decodeRow shared r, loadSheetRowsAux shared rs with
    | some v, some vs => some (v :: vs)
    | _, _ => Option.none

/-- Models generate_sites.load_sheet_rows: resolve the shared strings once, then
decode every row. -/
def loadSheetRows (sst : List (List String)) (sheet : List (List Cell)) :
    Option (List (List String)) :=
  loadSheetRowsAux (loadSharedStrings sst) sheet

/-- Models generate_sites.write_site as the list of written files (path, content)
in write order: the stylesheet, the index page, one detail page per store named by
its slug, and the stores.json data dump. -/
def writeSite (stores : List Store) : List (String × String) :=
  ("docs/assets/site.css", STYLE_CSS)
    :: ("docs/index.html", renderIndex stores)
    :: stores.map (fun s => ("docs/stores/" ++ s.slug ++ ".html", renderDetail s))
    ++ [("docs/stores.json", storesJson stores)]

/-- Models generate_sites.main up to the filesystem: decode the worksheet through
the shared-string table, build the store records, and render every output
document, the JSON dump included. -/
def pipeline (sst : List (List String)) (sheet : List (List Cell)) :
    Option (List (String × String)) :=
  match loadSheetRows sst sheet with
  | none => none
  | some rows =>
    match loadStores rows with
    | none => none
    | some stores => some (writeSite stores)

end GenSites

namespace Build

/-- The card f-string of build.build_card. -/
def buildCardBody (s : StoreB) (ratingBlock reviews statusText : String) : String :=
  "\n    <article class=\"card\">\n      <img src=\""
  ++ PyModel.pyHtmlEscape (if s.image_url = "" then s.default_avatar else s.image_url)
  ++ "\" alt=\""
  ++ PyModel.pyHtmlEscape s.name
  ++ "\" loading=\"lazy\" />\n      <div class=\"card__body\">\n        <h2><a href=\"stores/"
  ++ s.slug
  ++ "/index.html\">"
  ++ PyModel.pyHtmlEscape s.name
  ++ "</a></h2>\n        <p class=\"card__meta\">"
  ++ ratingBlock
  ++ " "
  ++ reviews
  ++ "</p>\n        <p class=\"card__meta\">"
  ++ PyModel.pyHtmlEscape s.category
  ++ "</p>\n        <p>"
  ++ PyModel.pyHtmlEscape s.address
  ++ "</p>\n        <p class=\"card__status\">"
  ++ PyModel.pyHtmlEscape statusText
  ++ "</p>\n        <div class=\"card__actions\">\n          <a class=\"button\" href=\"stores/"
  ++ s.slug
  ++ "/index.html\">檢視店家頁面</a>\n          <a class=\"button button--ghost\" href=\""
  ++ PyModel.pyHtmlEscape s.map_url
  ++ "\">查看地圖</a>\n        </div>\n      </div>\n    </article>\n    "

/-- Models build.build_card. -/
def buildCard (s : StoreB) : String :=
  let ratingBlock :=
    if s.rating ≠ "N/A" then "<strong>" ++ PyModel.pyHtmlEscape s.rating ++ "</strong>" else "N/A"
  let reviews := if s.review_count ≠ "" then "（" ++ s.review_count ++ " 則評論）" else ""
  let statusText := String.intercalate " · " ([s.status, s.closing].filter (fun part => part ≠ ""))
  buildCardBody s ratingBlock reviews statusText

/-- The page wrapper f-string of build.render_index. -/
def renderIndexBody (cards : String) : String :=
  "<!doctype html>\n<html lang=\"zh-Hant\">\n<head>\n  <meta charset=\"utf-8\" />\n  <meta name=\"viewport\" content=\"width=device-width, initial-scale=1\" />\n  <title>水電行列表</title>\n  <link rel=\"stylesheet\" href=\"assets/style.css\" />\n</head>\n<body>\n  <header class=\"hero\">\n    <div class=\"hero__content\">\n      <p class=\"eyebrow\">GitHub Pages</p>\n      <h1>水電行小百科</h1>\n      <p>每一家水電行都有自己的獨立介紹頁面，點擊卡片即可前往。</p>\n    </div>\n  </header>\n  <main class=\"grid\">\n    "
  ++ cards
  ++ "\n  </main>\n</body>\n</html>\n"

/-- Models build.render_index. -/
def renderIndex (stores : List StoreB) : String :=
  renderIndexBody (String.intercalate "\n" (stores.map buildCard))

/-- The page f-string of build.render_store. -/
def renderStoreBody (s : StoreB) (reviewText statusText snippet phoneLine : String) : String :=
  "<!doctype html>\n<html lang=\"zh-Hant\">\n<head>\n  <meta charset=\"utf-8\" />\n  <meta name=\"viewport\" content=\"width=device-width, initial-scale=1\" />\n  <title>"
  ++ PyModel.pyHtmlEscape s.name
  ++ "</title>\n  <link rel=\"stylesheet\" href=\"../assets/style.css\" />\n</head>\n<body class=\"store-page\">\n  <div class=\"store\">\n    <a class=\"back-link\" href=\"../index.html\">← 返回列表</a>\n    <header>\n      <h1>"
  ++ PyModel.pyHtmlEscape s.name
  ++ "</h1>\n      <p class=\"store__meta\">"
  ++ PyModel.pyHtmlEscape s.category
  ++ "</p>\n      <p class=\"store__meta\">⭐ "
  ++ PyModel.pyHtmlEscape s.rating
  ++ " "
  ++ reviewText
  ++ "</p>\n      <p class=\"store__meta\">"
  ++ PyModel.pyHtmlEscape statusText
  ++ "</p>\n      <p>"
  ++ PyModel.pyHtmlEscape s.address
  ++ "</p>\n      "
  ++ phoneLine
  ++ "\n      <p><a class=\"button\" href=\""
  ++ PyModel.pyHtmlEscape s.map_url
  ++ "\">在 Google 地圖查看</a></p>\n    </header>\n    <img class=\"store__image\" src=\""
  ++ PyModel.pyHtmlEscape (if s.image_url = "" then s.default_avatar else s.image_url)
  ++ "\" alt=\""
  ++ PyModel.pyHtmlEscape s.name
  ++ "\" loading=\"lazy\" />\n    <section class=\"store__section\">\n      <h2>顧客回饋</h2>\n      <p>"
  ++ snippet
  ++ "</p>\n    </section>\n  </div>\n</body>\n</html>\n"

/-- Models build.render_store. -/
def renderStore (s : StoreB) : String :=
  let statusText := String.intercalate " · " ([s.status, s.closing].filter (fun part => part ≠ ""))
  let reviewText := if s.review_count ≠ "" then "共有 " ++ s.review_count ++ " 則評論" else ""
  let snippet := if s.snippet ≠ "" then PyModel.pyHtmlEscape s.snippet else "暫無評論摘錄"
  let phoneLine :=
    if s.phone ≠ "" then "<p><strong>電話：</strong>" ++ PyModel.pyHtmlEscape s.phone ++ "</p>" else ""
  renderStoreBody s reviewText statusText snippet phoneLine

/-- The STYLE stylesheet constant of build.py. -/
def STYLE : String :=
  "\n:root \x7b\n  --bg: #0f172a;\n  --panel: #111827;\n  --text: #e2e8f0;\n  --muted: #94a3b8;\n  --accent: #38bdf8;\n  --border: #1f2937;\n  --radius: 16px;\n  font-family: \x27Noto Sans TC\x27, \x27Inter\x27, system-ui, -apple-system, sans-serif;\n\x7d\n\n* \x7b box-sizing: border-box; \x7d\nbody \x7b margin: 0; background: var(--bg); color: var(--text); \x7d\na \x7b color: var(--accent); text-decoration: none; \x7d\na:hover \x7b text-decoration: underline; \x7d\n\n.hero \x7b\n  background: radial-gradient(circle at 20% 20%, rgba(56,189,248,0.15), transparent 40%),\n              radial-gradient(circle at 80% 0%, rgba(94,234,212,0.1), transparent 30%),\n              linear-gradient(135deg, #0b1224, #0f172a);\n  padding: 64px 24px;\n\x7d\n.hero__content \x7b max-width: 960px; margin: 0 auto; \x7d\n.hero h1 \x7b font-size: 2.4rem; margin: 8px 0; \x7d\n.hero p \x7b color: var(--muted); \x7d\n.eyebrow \x7b text-transform: uppercase; letter-spacing: 0.1em; font-size: 0.75rem; color: var(--accent); \x7d\n\n.grid \x7b\n  display: grid;\n  grid-template-columns: repeat(auto-fit, minmax(280px, 1fr));\n  gap: 20px;\n  padding: 24px;\n  max-width: 1200px;\n  margin: 0 auto;\n\x7d\n\n.card \x7b\n  background: var(--panel);\n  border: 1px solid var(--border);\n  border-radius: var(--radius);\n  overflow: hidden;\n  display: flex;\n  flex-direction: column;\n  box-shadow: 0 10px 40px rgba(0,0,0,0.35);\n\x7d\n.card img \x7b width: 100%; height: 180px; object-fit: cover; \x7d\n.card__body \x7b padding: 16px; display: flex; flex-direction: column; gap: 8px; flex: 1; \x7d\n.card__meta \x7b color: var(--muted); margin: 0; \x7d\n.card__status \x7b color: #4ade80; \x7d\n.card__actions \x7b margin-top: auto; display: flex; gap: 8px; flex-wrap: wrap; \x7d\n\n.button \x7b\n  display: inline-block;\n  padding: 8px 12px;\n  border-radius: 999px;\n  background: var(--accent);\n  color: #0b1224;\n  font-weight: 600;\n\x7d\n.button--ghost \x7b\n  background: transparent;\n  border: 1px solid var(--border);\n  color: var(--text);\n\x7d\n\n.store-page \x7b background: radial-gradient(circle at 10% 20%, rgba(56,189,248,0.2), transparent 25%), #0b1224; \x7d\n.store \x7b\n  max-width: 800px;\n  margin: 24px auto;\n  padding: 24px;\n  background: var(--panel);\n  border: 1px solid var(--border);\n  border-radius: var(--radius);\n  box-shadow: 0 10px 40px rgba(0,0,0,0.35);\n\x7d\n.store h1 \x7b margin-top: 8px; \x7d\n.store__meta \x7b color: var(--muted); margin: 4px 0; \x7d\n.store__image \x7b width: 100%; border-radius: 12px; object-fit: cover; margin: 16px 0; \x7d\n.store__section h2 \x7b margin-bottom: 8px; \x7d\n.back-link \x7b color: var(--muted); \x7d\n"

/-- Models build.load_rows over the whole worksheet. -/
def loadRows (strings : List String) : List (List GenSites.Cell) → Option (List (List String))
  | [] => some []
  | r :: rs =>
    match decodeCellsB strings r, loadRows strings rs with
    | some v, some vs => some (v :: vs)
    | _, _ => Option.none

/-- Models build.write_files as the list of written files (path, content) in write
order; on disk a later duplicate slug path overwrites an earlier one. -/
def writeFiles (stores : List StoreB) : List (String × String) :=
  ("docs/index.html", renderIndex stores)
    :: stores.map (fun s => ("docs/stores/" ++ s.slug ++ "/index.html", renderStore s))
    ++ [("docs/assets/style.css", STYLE)]

/-- Models build.main up to the filesystem: resolve shared strings, decode the
worksheet rows, parse every data row, render every output document. -/
def pipeline (sst : List (List String)) (sheet : List (List GenSites.Cell)) :
    Option (List (String × String)) :=
  let strings := loadStrings sst
  match loadRows strings sheet with
  | none => none
  | some rows => (parseStores (rows.drop 1)).map writeFiles

end Build

namespace PyModel

/-- No two adjacent dashes in a character list. -/
def noDD (l : List Char) : Prop := List.Chain' (fun a b => ¬(a = '-' ∧ b = '-')) l

lemma sepAux_mem {p : Char → Bool} {c : Char} (l : List Char) :
    ∀ b : Bool, c ∈ sepAux p b l → c = '-' ∨ (c ∈ l ∧ p c = false) := by
  induction l with
  | nil => intro b h; simp [sepAux] at h
  | cons x xs ih =>
    intro b h
    by_cases hx : p x
    · cases b with
      | true =>
        simp only [sepAux, hx, if_true] at h
        rcases ih true h with h1 | ⟨h1, h2⟩
        · exact Or.inl h1
        · exact Or.inr ⟨List.mem_cons_of_mem _ h1, h2⟩
      | false =>
        simp [sepAux, hx] at h
        rcases h with h | h
        · exact Or.inl h
        · rcases ih true h with h1 | ⟨h1, h2⟩
          · exact Or.inl h1
          · exact Or.inr ⟨List.mem_cons_of_mem _ h1, h2⟩
    · simp [sepAux, hx] at h
      rcases h with h | h
      · subst h
        exact Or.inr ⟨List.mem_cons_self _ _, by simpa using hx⟩
      · rcases ih false h with h1 | ⟨h1, h2⟩
        · exact Or.inl h1
        · exact Or.inr ⟨List.mem_cons_of_mem _ h1, h2⟩

lemma sepAux_head_true {p : Char → Bool} (l : List Char) :
    ∀ c : Char, (sepAux p true l).head? = some c → p c = false := by
  induction l with
  | nil => intro c h; simp [sepAux] at h
  | cons x xs ih =>
    intro c h
    by_cases hx : p x
    · simp only [sepAux, hx, if_true] at h
      exact ih c h
    · simp [sepAux, hx] at h
      rw [← h]
      simpa using hx

lemma sepAux_noDD {p : Char → Bool} (hp : p '-' = true) (l : List Char) :
    ∀ b : Bool, noDD (sepAux p b l) := by
  induction l with
  | nil => intro b; simp [sepAux, noDD]
  | cons x xs ih =>
    intro b
    by_cases hx : p x
    · cases b with
      | true => simpa only [sepAux, hx, if_true] using ih true
      | false =>
        have hgoal : noDD ('-' :: sepAux p true xs) := by
          refine List.chain'_cons'.mpr ⟨?_, ih true⟩
          intro y hy hcontra
          have hy2 : (sepAux p true xs).head? = some y := hy
          have hpy := sepAux_head_true xs y hy2
          rw [hcontra.2, hp] at hpy
          exact absurd hpy (by simp)
        simpa [noDD, sepAux, hx] using hgoal
    · have hgoal : noDD (x :: sepAux p false xs) := by
        refine List.chain'_cons'.mpr ⟨?_, ih false⟩
        intro y hy hcontra
        rw [hcontra.1] at hx
        exact hx (by simp [hp])
      simpa [noDD, sepAux, hx] using hgoal

lemma sepAux_fix {p : Char → Bool} (l : List Char)
    (hmem : ∀ c ∈ l, p c = true → c = '-') (hdd : noDD l) :
    sepAux p false l = l ∧ ((∀ c, l.head? = some c → p c = false) → sepAux p true l = l) := by
  induction l with
  | nil => simp [sepAux]
  | cons x xs ih =>
    have hmem2 : ∀ c ∈ xs, p c = true → c = '-' :=
      fun c hc => hmem c (List.mem_cons_of_mem _ hc)
    have hdd2 : noDD xs := (List.chain'_cons'.mp hdd).2
    obtain ⟨ih1, ih2⟩ := ih hmem2 hdd2
    constructor
    · by_cases hx : p x
      · have hxd : x = '-' := hmem x (List.mem_cons_self _ _) hx
        have hhead : ∀ c, xs.head? = some c → p c = false := by
          intro c hc
          cases h2 : p c with
          | false => rfl
          | true =>
            have hcd : c = '-' := hmem2 c (List.mem_of_mem_head? hc) h2
            exact absurd ⟨hxd, hcd⟩ ((List.chain'_cons'.mp hdd).1 c hc)
        simp only [sepAux, hx, if_true]
        rw [ih2 hhead, hxd]
        simp
      · simp [sepAux, hx, ih1]
    · intro hhead
      have hx : p x = false := hhead x rfl
      simp [sepAux, hx, ih1]

lemma lstrip_id {p : Char → Bool} {l : List Char}
    (h : ∀ c, l.head? = some c → p c = false) : l.dropWhile p = l := by
  cases l with
  | nil => rfl
  | cons a t =>
    have := h a rfl
    simp [List.dropWhile_cons, this]

lemma rstripBy_eq_self {p : Char → Bool} {l : List Char}
    (h : ∀ c, l.getLast? = some c → p c = false) : rstripBy p l = l := by
  unfold rstripBy
  rw [lstrip_id, List.reverse_reverse]
  intro c hc
  exact h c (by rwa [List.head?_reverse] at hc)

lemma rstripBy_isPre {p : Char → Bool} (l : List Char) : rstripBy p l <+: l := by
  have hdef : rstripBy p l = (List.dropWhile p l.reverse).reverse := rfl
  obtain ⟨t, ht⟩ := List.dropWhile_suffix (l := l.reverse) p
  exact ⟨t.reverse, by rw [hdef, ← List.reverse_append, ht, List.reverse_reverse]⟩

lemma stripBy_isInfix {p : Char → Bool} (l : List Char) : stripBy p l <:+: l := by
  have h1 : stripBy p l <+: lstripBy p l := rstripBy_isPre _
  have h2 : lstripBy p l <:+ l := List.dropWhile_suffix p
  exact h1.isInfix.trans h2.isInfix

lemma rstripBy_last {p : Char → Bool} (l : List Char) :
    ∀ c, (rstripBy p l).getLast? = some c → p c = false := by
  intro c hc
  unfold rstripBy at hc
  rw [List.getLast?_reverse] at hc
  have h := List.head?_dropWhile_not p l.reverse
  rw [hc] at h
  simpa using h

lemma head?_of_isPre {l m : List Char} (h : l <+: m) (hne : l ≠ []) :
    l.head? = m.head? := by
  obtain ⟨t, rfl⟩ := h
  cases l with
  | nil => exact absurd rfl hne
  | cons a l2 => rfl

lemma stripBy_head {p : Char → Bool} (l : List Char) :
    ∀ c, (stripBy p l).head? = some c → p c = false := by
  intro c hc
  have hne : stripBy p l ≠ [] := by
    intro h
    rw [h] at hc
    simp at hc
  have hpre : stripBy p l <+: lstripBy p l := rstripBy_isPre _
  rw [head?_of_isPre hpre hne] at hc
  simp only [lstripBy] at hc
  have h := List.head?_dropWhile_not p l
  rw [hc] at h
  simpa using h

end PyModel

namespace Build

open PyModel

lemma toLower_fixed {c : Char} (h : allowedChar c = true ∨ c = '-') :
    Char.toLower c = c := by
  have hn : ¬(c.toNat ≥ 65 ∧ c.toNat ≤ 90) := by
    rcases h with h | h
    · simp [allowedChar] at h
      rcases h with (⟨h1, h2⟩ | ⟨h1, h2⟩) | ⟨h1, h2⟩
      · have k1 : 97 ≤ c.toNat := h1
        have k2 : c.toNat ≤ 122 := h2
        omega
      · have k1 : 48 ≤ c.toNat := h1
        have k2 : c.toNat ≤ 57 := h2
        omega
      · omega
    · subst h; decide
  simp [Char.toLower, hn]

lemma noDD_of_pre {l m : List Char} (h : l <+: m) (hm : noDD m) : noDD l := by
  obtain ⟨t, rfl⟩ := h
  exact (List.chain'_append.mp hm).1

lemma noDD_of_mid {l m : List Char} (h : l <:+: m) (hm : noDD m) : noDD l := by
  obtain ⟨s, t, rfl⟩ := h
  exact (List.chain'_append.mp (List.chain'_append.mp hm).1).2.1

lemma slug_chain_inv (t1 t2 t4 : List Char)
    (h2 : t2 = pySubRuns (fun c => !(allowedChar c)) t1)
    (h4 : t4 = rstripBy (fun c => c = '-')
      ((stripBy (fun c => c = '-') (pySubRuns (fun c => c = '-') t2)).take 60)) :
    t4.length ≤ 60 ∧ (∀ c ∈ t4, allowedChar c = true ∨ c = '-') ∧ noDD t4 ∧
    (∀ c, t4.head? = some c → c ≠ '-') ∧ (∀ c, t4.getLast? = some c → c ≠ '-') := by
  have hpd : (fun c : Char => decide (c = '-')) '-' = true := by decide
  have memT2 : ∀ c ∈ t2, allowedChar c = true ∨ c = '-' := by
    intro c hc
    rw [h2] at hc
    rcases sepAux_mem t1 false hc with h | ⟨h1, hpc⟩
    · exact Or.inr h
    · exact Or.inl (by simpa using hpc)
  set t2d := pySubRuns (fun c => c = '-') t2 with ht2d
  have memT2d : ∀ c ∈ t2d, allowedChar c = true ∨ c = '-' := by
    intro c hc
    rw [ht2d] at hc
    rcases sepAux_mem t2 false hc with h | ⟨h1, hpc⟩
    · exact Or.inr h
    · exact memT2 c h1
  have ddT2d : noDD t2d := sepAux_noDD hpd t2 false
  set t3 := stripBy (fun c => c = '-') t2d with ht3
  have infT3 : t3 <:+: t2d := stripBy_isInfix t2d
  have memT3 : ∀ c ∈ t3, allowedChar c = true ∨ c = '-' := fun c hc => memT2d c (infT3.subset hc)
  have ddT3 : noDD t3 := noDD_of_mid infT3 ddT2d
  have headT3 : ∀ c, t3.head? = some c → c ≠ '-' := by
    intro c hc
    have := stripBy_head t2d c hc
    simpa using this
  set tk := t3.take 60 with htk
  have preTk : tk <+: t3 := List.take_prefix 60 t3
  have preT4 : t4 <+: tk := h4 ▸ rstripBy_isPre tk
  refine ⟨?_, ?_, ?_, ?_, ?_⟩
  · calc t4.length ≤ tk.length := preT4.length_le
    _ ≤ 60 := by simp [htk, List.length_take]
  · intro c hc
    exact memT3 c (preTk.subset (preT4.subset hc))
  · exact noDD_of_pre preT4 (noDD_of_pre preTk ddT3)
  · intro c hc
    have hne4 : t4 ≠ [] := by
      intro h
      rw [h] at hc
      simp at hc
    have hneTk : tk ≠ [] := by
      intro h
      rw [h4, h, ] at hne4
      exact hne4 rfl
    rw [head?_of_isPre preT4 hne4, head?_of_isPre preTk hneTk] at hc
    exact headT3 c hc
  · intro c hc
    rw [h4] at hc
    have := rstripBy_last tk c hc
    simpa using this

lemma slugify_inv (s : String) :
    (slugify s).toList ≠ [] ∧ (slugify s).toList.length ≤ 60 ∧
    (∀ c ∈ (slugify s).toList, allowedChar c = true ∨ c = '-') ∧
    noDD (slugify s).toList ∧
    (∀ c, (slugify s).toList.head? = some c → c ≠ '-') ∧
    (∀ c, (slugify s).toList.getLast? = some c → c ≠ '-') := by
  obtain ⟨hlen, hmem, hdd, hhead, hlast⟩ :=
    slug_chain_inv (s.toList.map Char.toLower) _ _ rfl rfl
  by_cases hT : rstripBy (fun c => c = '-')
      ((stripBy (fun c => c = '-') (pySubRuns (fun c => c = '-')
        (pySubRuns (fun c => !(allowedChar c)) (s.toList.map Char.toLower)))).take 60) = []
  · have hcore : slugify s = "store" := by
      show (if _ = ([] : List Char) then ("store" : String) else _) = "store"
      rw [if_pos hT]
    rw [hcore]
    exact ⟨by decide, by decide, by decide, by unfold noDD; simp [List.chain'_cons], by decide, by decide⟩
  · have hcore : slugify s = String.mk (rstripBy (fun c => c = '-')
      ((stripBy (fun c => c = '-') (pySubRuns (fun c => c = '-')
        (pySubRuns (fun c => !(allowedChar c)) (s.toList.map Char.toLower)))).take 60)) := by
      show (if _ = ([] : List Char) then ("store" : String) else _) = _
      rw [if_neg hT]
    rw [hcore]
    exact ⟨hT, hlen, hmem, hdd, hhead, hlast⟩

end Build

namespace GenSites

open PyModel

lemma toLower_idem (c : Char) : Char.toLower (Char.toLower c) = Char.toLower c := by
  by_cases h : c.toNat ≥ 65 ∧ c.toNat ≤ 90
  · have hstep : Char.toLower c = Char.ofNat (c.toNat + 32) := by
      simp [Char.toLower, h]
    rw [hstep]
    obtain ⟨h1, h2⟩ := h
    generalize c.toNat = m at h1 h2 ⊢
    interval_cases m <;> decide
  · have hstep : Char.toLower c = c := by simp [Char.toLower, h]
    rw [hstep, hstep]

lemma wordChar_ge {c : Char} (h : wordChar c = true) : 48 ≤ c.toNat := by
  simp [wordChar, Char.isAlphanum, Char.isAlpha, Char.isDigit, Char.isUpper, Char.isLower] at h
  rcases h with (((⟨h1, h2⟩ | ⟨h1, h2⟩) | ⟨h1, h2⟩) | heq) | ⟨h1, h2⟩
  · have k : 65 ≤ c.toNat := h1
    omega
  · have k : 97 ≤ c.toNat := h1
    omega
  · have k : 48 ≤ c.toNat := h1
    omega
  · subst heq
    decide
  · omega

lemma isPySpace_le {c : Char} (h : isPySpace c = true) : c.toNat ≤ 32 := by
  simp only [isPySpace, Bool.or_eq_true, decide_eq_true_eq] at h
  rcases h with ((((h | h) | h) | h) | h) | h
  · subst h
    decide
  all_goals omega

lemma wordChar_not_space {c : Char} (h : wordChar c = true ∨ c = '-') :
    isPySpace c = false := by
  cases hsp : isPySpace c with
  | false => rfl
  | true =>
    exfalso
    have h32 := isPySpace_le hsp
    rcases h with h | h
    · have := wordChar_ge h
      omega
    · subst h
      exact absurd hsp (by decide)

lemma gsSlug_chain_inv (t1 t2 t4 : List Char)
    (hlowed : ∀ c ∈ t1, Char.toLower c = c)
    (h2 : t2 = pySubRuns (fun c => !(wordChar c)) t1)
    (h4 : t4 = stripBy (fun c => c = '-') (pySubRuns (fun c => c = '-') t2)) :
    (∀ c ∈ t4, (wordChar c = true ∧ Char.toLower c = c) ∨ c = '-') ∧ noDD t4 ∧
    (∀ c, t4.head? = some c → c ≠ '-') ∧ (∀ c, t4.getLast? = some c → c ≠ '-') := by
  have hpd : (fun c : Char => decide (c = '-')) '-' = true := by decide
  have memT2 : ∀ c ∈ t2, (wordChar c = true ∧ Char.toLower c = c) ∨ c = '-' := by
    intro c hc
    rw [h2] at hc
    rcases sepAux_mem t1 false hc with h | ⟨h1, hpc⟩
    · exact Or.inr h
    · exact Or.inl ⟨by simpa using hpc, hlowed c h1⟩
  set t2d := pySubRuns (fun c => c = '-') t2 with ht2d
  have memT2d : ∀ c ∈ t2d, (wordChar c = true ∧ Char.toLower c = c) ∨ c = '-' := by
    intro c hc
    rw [ht2d] at hc
    rcases sepAux_mem t2 false hc with h | ⟨h1, hpc⟩
    · exact Or.inr h
    · exact memT2 c h1
  have ddT2d : noDD t2d := sepAux_noDD hpd t2 false
  have hinf : t4 <:+: t2d := by
    rw [h4]
    exact stripBy_isInfix t2d
  refine ⟨fun c hc => memT2d c (hinf.subset hc), Build.noDD_of_mid hinf ddT2d, ?_, ?_⟩
  · intro c hc
    rw [h4] at hc
    have := stripBy_head t2d c hc
    simpa using this
  · intro c hc
    rw [h4] at hc
    unfold stripBy at hc
    have := rstripBy_last (lstripBy (fun c => c = '-') t2d) c hc
    simpa using this

lemma gs_slugify_inv (s : String) :
    (slugify s).toList ≠ [] ∧
    (∀ c ∈ (slugify s).toList, (wordChar c = true ∧ Char.toLower c = c) ∨ c = '-') ∧
    noDD (slugify s).toList ∧
    (∀ c, (slugify s).toList.head? = some c → c ≠ '-') ∧
    (∀ c, (slugify s).toList.getLast? = some c → c ≠ '-') := by
  have hlowed : ∀ c ∈ (pyStrip s).toList.map Char.toLower, Char.toLower c = c := by
    intro c hc
    obtain ⟨a, ha, rfl⟩ := List.mem_map.mp hc
    exact toLower_idem a
  obtain ⟨hmem, hdd, hhead, hlast⟩ :=
    gsSlug_chain_inv ((pyStrip s).toList.map Char.toLower) _ _ hlowed rfl rfl
  by_cases hT : stripBy (fun c => c = '-') (pySubRuns (fun c => c = '-')
      (pySubRuns (fun c => !(wordChar c)) ((pyStrip s).toList.map Char.toLower))) = []
  · have hcore : slugify s = "store" := by
      show (if _ = ([] : List Char) then ("store" : String) else _) = "store"
      rw [if_pos hT]
    rw [hcore]
    refine ⟨by decide, by decide, ?_, by decide, by decide⟩
    unfold noDD
    simp [List.chain'_cons]
  · have hcore : slugify s = String.mk (stripBy (fun c => c = '-')
      (pySubRuns (fun c => c = '-')
        (pySubRuns (fun c => !(wordChar c)) ((pyStrip s).toList.map Char.toLower)))) := by
      show (if _ = ([] : List Char) then ("store" : String) else _) = _
      rw [if_neg hT]
    rw [hcore]
    exact ⟨hT, hmem, hdd, hhead, hlast⟩

lemma slugifyGS_idem (x : String) : slugify (slugify x) = slugify x := by
  obtain ⟨hne, hmem, hdd, hhead, hlast⟩ := gs_slugify_inv x
  set r := slugify x with hr
  have hnosp : ∀ c ∈ r.toList, isPySpace c = false := by
    intro c hc
    refine wordChar_not_space ?_
    rcases hmem c hc with h | h
    · exact Or.inl h.1
    · exact Or.inr h
  have hstripL : stripBy isPySpace r.toList = r.toList := by
    unfold stripBy lstripBy
    rw [lstrip_id (fun c hc => hnosp c (List.mem_of_mem_head? hc))]
    exact rstripBy_eq_self (fun c hc => hnosp c (List.mem_of_getLast?_eq_some hc))
  have hstrip : pyStrip r = r := by
    unfold pyStrip
    rw [hstripL]
    rfl
  have hlowfix : r.toList.map Char.toLower = r.toList := by
    have hfix : ∀ c ∈ r.toList, Char.toLower c = c := by
      intro c hc
      rcases hmem c hc with h | h
      · exact h.2
      · subst h
        decide
    calc r.toList.map Char.toLower = r.toList.map id := List.map_congr_left hfix
    _ = r.toList := List.map_id _
  have hmem1 : ∀ c ∈ r.toList, (fun c => !(wordChar c)) c = true → c = '-' := by
    intro c hc hpc
    rcases hmem c hc with h | h
    · simp [h.1] at hpc
    · exact h
  have h2 : pySubRuns (fun c => !(wordChar c)) r.toList = r.toList :=
    (sepAux_fix r.toList hmem1 hdd).1
  have hmemd : ∀ c ∈ r.toList, (fun c : Char => decide (c = '-')) c = true → c = '-' := by
    intro c hc hpc
    simpa using hpc
  have h3 : pySubRuns (fun c => c = '-') r.toList = r.toList :=
    (sepAux_fix r.toList hmemd hdd).1
  have hheadp : ∀ c, r.toList.head? = some c → (fun c : Char => decide (c = '-')) c = false := by
    intro c hc
    simpa using hhead c hc
  have hlastp : ∀ c, r.toList.getLast? = some c → (fun c : Char => decide (c = '-')) c = false := by
    intro c hc
    simpa using hlast c hc
  have h4 : stripBy (fun c => c = '-') r.toList = r.toList := by
    unfold stripBy lstripBy
    rw [lstrip_id hheadp]
    exact rstripBy_eq_self hlastp
  have hcore : slugify r = if stripBy (fun c => c = '-')
      (pySubRuns (fun c => c = '-') (pySubRuns (fun c => !(wordChar c))
        ((pyStrip r).toList.map Char.toLower))) = []
      then "store" else String.mk (stripBy (fun c => c = '-')
      (pySubRuns (fun c => c = '-') (pySubRuns (fun c => !(wordChar c))
        ((pyStrip r).toList.map Char.toLower)))) := rfl
  rw [hcore, hstrip, hlowfix, h2, h3, h4, if_neg hne]
  rfl

end GenSites

/-- C3 (amended): build.slugify implements the full claimed algorithm — lowercase,
non-allowed runs (outside ASCII alphanumerics and the CJK block 4E00-9FFF) to a
single dash, dash runs collapsed, ends trimmed, truncation to 60 with a re-trim,
fallback "store" — and consequently its output is non-empty, at most 60 characters,
contains only allowed characters and dashes, never two adjacent dashes, and never a
leading or trailing dash.  (The slugify variants in build_sites.py and
generate_sites.py omit the truncation step, see the counterexample.) -/
theorem c3_slugify_build_invariants (s : String) :
    Build.slugify s ≠ "" ∧ (Build.slugify s).length ≤ 60 ∧
    (∀ c ∈ (Build.slugify s).toList, Build.allowedChar c = true ∨ c = '-') ∧
    PyModel.noDD (Build.slugify s).toList ∧
    (∀ c, (Build.slugify s).toList.head? = some c → c ≠ '-') ∧
    (∀ c, (Build.slugify s).toList.getLast? = some c → c ≠ '-') := by
  obtain ⟨h1, h2, h3, h4, h5, h6⟩ := Build.slugify_inv s
  refine ⟨?_, h2, h3, h4, h5, h6⟩
  intro h
  exact h1 (by rw [h]; rfl)

/-- C3 counterexample: build_sites.slugify applies no length truncation, so on a
61-character name its result has length 61 and differs from the claimed algorithm
(whose truncation bound, 60, is build.slugify's); generate_sites.slugify likewise
never truncates. -/
theorem c3_cex :
    (BuildSites.slugify (String.mk (List.replicate 61 'a')) 1).length = 61 ∧
    (Build.slugify (String.mk (List.replicate 61 'a'))).length = 60 ∧
    BuildSites.slugify (String.mk (List.replicate 61 'a')) 1 ≠
      Build.slugify (String.mk (List.replicate 61 'a')) := by
  exact ⟨by decide, by decide, by decide⟩

namespace Build

lemma slugifyB_idem (x : String) :
    Build.slugify (Build.slugify x) = Build.slugify x := by
  obtain ⟨hne, hlen, hmem, hdd, hhead, hlast⟩ := Build.slugify_inv x
  set r := Build.slugify x with hr
  have hlow : r.toList.map Char.toLower = r.toList := by
    have hfix : ∀ c ∈ r.toList, Char.toLower c = c := fun c hc => Build.toLower_fixed (hmem c hc)
    calc r.toList.map Char.toLower = r.toList.map id := List.map_congr_left hfix
    _ = r.toList := List.map_id _
  have hmem1 : ∀ c ∈ r.toList, (fun c => !(Build.allowedChar c)) c = true → c = '-' := by
    intro c hc hpc
    rcases hmem c hc with h | h
    · simp [h] at hpc
    · exact h
  have h2 : PyModel.pySubRuns (fun c => !(Build.allowedChar c)) r.toList = r.toList :=
    (PyModel.sepAux_fix r.toList hmem1 hdd).1
  have hmemd : ∀ c ∈ r.toList, (fun c : Char => decide (c = '-')) c = true → c = '-' := by
    intro c hc hpc
    simpa using hpc
  have h3 : PyModel.pySubRuns (fun c => c = '-') r.toList = r.toList :=
    (PyModel.sepAux_fix r.toList hmemd hdd).1
  have hheadp : ∀ c, r.toList.head? = some c → (fun c : Char => decide (c = '-')) c = false := by
    intro c hc
    simpa using hhead c hc
  have hlastp : ∀ c, r.toList.getLast? = some c → (fun c : Char => decide (c = '-')) c = false := by
    intro c hc
    simpa using hlast c hc
  have h4 : PyModel.stripBy (fun c => c = '-') r.toList = r.toList := by
    unfold PyModel.stripBy PyModel.lstripBy
    rw [PyModel.lstrip_id hheadp]
    exact PyModel.rstripBy_eq_self hlastp
  have h5 : r.toList.take 60 = r.toList := List.take_of_length_le hlen
  have h6 : PyModel.rstripBy (fun c => c = '-') r.toList = r.toList :=
    PyModel.rstripBy_eq_self hlastp
  have hcore : Build.slugify r = if PyModel.rstripBy (fun c => c = '-')
      ((PyModel.stripBy (fun c => c = '-') (PyModel.pySubRuns (fun c => c = '-')
        (PyModel.pySubRuns (fun c => !(Build.allowedChar c)) (r.toList.map Char.toLower)))).take 60) = []
      then "store" else String.mk (PyModel.rstripBy (fun c => c = '-')
      ((PyModel.stripBy (fun c => c = '-') (PyModel.pySubRuns (fun c => c = '-')
        (PyModel.pySubRuns (fun c => !(Build.allowedChar c)) (r.toList.map Char.toLower)))).take 60)) := rfl
  rw [hcore, hlow, h2, h3, h4, h5, h6, if_neg hne]
  rfl

end Build

/-- C9: slugify is idempotent in both cited implementations — in fact on every
input, not only on inputs that are already clean slugs: applying build.slugify or
generate_sites.slugify twice gives the same result as applying it once. -/
theorem c9_slugify_idempotent (x : String) :
    Build.slugify (Build.slugify x) = Build.slugify x ∧
    GenSites.slugify (GenSites.slugify x) = GenSites.slugify x :=
  ⟨Build.slugifyB_idem x, GenSites.slugifyGS_idem x⟩

namespace Spec

/-- Fuel-indexed standard bijective base-26 column naming (A..Z, AA, AB, ...):
the specification-side encoding of a 1-based column index, against which
column_index is checked.  Sufficient fuel is the index itself. -/
def colNameAux : Nat → Nat → List Char
  | 0, _ => []
  | fuel + 1, n =>
    if n ≤ 26 then [Char.ofNat (64 + n)]
    else colNameAux fuel ((n - 1) / 26) ++ [Char.ofNat (65 + (n - 1) % 26)]

/-- The standard column name of a 1-based column index. -/
def colName (n : Nat) : List Char := colNameAux n n

lemma colChar_facts (d : Nat) (h1 : 1 ≤ d) (h2 : d ≤ 26) :
    GenSites.isUpperAZ (Char.ofNat (64 + d)) = true ∧ (Char.ofNat (64 + d)).toNat = 64 + d := by
  interval_cases d <;> exact ⟨by decide, by decide⟩

lemma colNameAux_spec : ∀ fuel n, 1 ≤ n → n ≤ fuel →
    (∀ c ∈ colNameAux fuel n, GenSites.isUpperAZ c = true) ∧
    (colNameAux fuel n).foldl (fun idx ch => idx * 26 + (ch.toNat - 'A'.toNat + 1)) 0 = n ∧
    colNameAux fuel n ≠ [] := by
  intro fuel
  induction fuel with
  | zero => intro n h1 h2; omega
  | succ fuel ih =>
    intro n h1 h2
    by_cases hn : n ≤ 26
    · simp only [colNameAux, if_pos hn]
      obtain ⟨hu, ht⟩ := colChar_facts n h1 hn
      refine ⟨by simpa using hu, ?_, by simp⟩
      have hA : ('A').toNat = 65 := rfl
      simp only [List.foldl_cons, List.foldl_nil, ht, hA]
      omega
    · push_neg at hn
      simp only [colNameAux, if_neg (by omega : ¬n ≤ 26)]
      have hq1 : 1 ≤ (n - 1) / 26 := Nat.one_le_div_iff (by norm_num) |>.mpr (by omega)
      have hq2 : (n - 1) / 26 ≤ fuel := by
        have hlt : (n - 1) / 26 < n := lt_of_le_of_lt (Nat.div_le_self _ _) (by omega)
        omega
      obtain ⟨ihu, ihf, ihne⟩ := ih ((n - 1) / 26) hq1 hq2
      have hr : (n - 1) % 26 < 26 := Nat.mod_lt _ (by norm_num)
      have heq : 65 + (n - 1) % 26 = 64 + ((n - 1) % 26 + 1) := by omega
      obtain ⟨hu2, ht2⟩ := colChar_facts ((n - 1) % 26 + 1) (by omega) (by omega)
      refine ⟨?_, ?_, by simp⟩
      · intro c hc
        rcases List.mem_append.mp hc with h | h
        · exact ihu c h
        · simp only [List.mem_singleton] at h
          subst h
          rw [heq]
          exact hu2
      · rw [List.foldl_append, ihf]
        have hA : ('A').toNat = 65 := rfl
        simp only [List.foldl_cons, List.foldl_nil, hA]
        rw [heq, ht2]
        have hdm := Nat.div_add_mod (n - 1) 26
        omega

lemma takeWhile_append_not {p : Char → Bool} :
    ∀ (l rest : List Char), (∀ c ∈ l, p c = true) →
    (∀ c, rest.head? = some c → p c = false) →
    (l ++ rest).takeWhile p = l := by
  intro l
  induction l with
  | nil =>
    intro rest h1 h2
    cases rest with
    | nil => rfl
    | cons a t =>
      have := h2 a rfl
      simp [List.takeWhile_cons, this]
  | cons a l2 ih =>
    intro rest h1 h2
    have ha := h1 a (List.mem_cons_self _ _)
    simp [List.takeWhile_cons, ha, ih rest (fun c hc => h1 c (List.mem_cons_of_mem _ hc)) h2]

end Spec

/-- C10: generate_sites.column_index decodes cell references in bijective base 26:
"A1" gives 1, "Z1" gives 26, "AA3" gives 27; a reference not beginning with an
uppercase letter — including the empty string, the default for a cell without an
r attribute — silently maps to column 1; and on any reference formed of a standard
column name followed by a non-letter row part, it returns exactly that column's
1-based index. -/
theorem c10_column_index :
    (GenSites.columnIndex "A1" = 1 ∧ GenSites.columnIndex "Z1" = 26 ∧
      GenSites.columnIndex "AA3" = 27) ∧
    (∀ s : String, (∀ c, s.toList.head? = some c → GenSites.isUpperAZ c = false) →
      GenSites.columnIndex s = 1) ∧
    (∀ n : Nat, 1 ≤ n → ∀ rest : List Char,
      (∀ c, rest.head? = some c → GenSites.isUpperAZ c = false) →
      GenSites.columnIndex (String.mk (Spec.colName n ++ rest)) = n) := by
  refine ⟨⟨by decide, by decide, by decide⟩, ?_, ?_⟩
  · intro s h
    have htake : s.toList.takeWhile GenSites.isUpperAZ = [] := by
      cases hs : s.toList with
      | nil => rfl
      | cons a t =>
        have := h a (by rw [hs]; rfl)
        simp [List.takeWhile_cons, this]
    have hcol : GenSites.columnIndex s =
        if s.toList.takeWhile GenSites.isUpperAZ = [] then 1
        else (s.toList.takeWhile GenSites.isUpperAZ).foldl
          (fun idx ch => idx * 26 + (ch.toNat - 'A'.toNat + 1)) 0 := rfl
    rw [hcol, htake, if_pos rfl]
  · intro n h1 rest hrest
    obtain ⟨hu, hf, hne⟩ := Spec.colNameAux_spec n n h1 le_rfl
    have hne2 : Spec.colName n ≠ [] := hne
    have hf2 : (Spec.colName n).foldl (fun idx ch => idx * 26 + (ch.toNat - 'A'.toNat + 1)) 0 = n := hf
    have hu2 : ∀ c ∈ Spec.colName n, GenSites.isUpperAZ c = true := hu
    have htake : (Spec.colName n ++ rest).takeWhile GenSites.isUpperAZ = Spec.colName n :=
      Spec.takeWhile_append_not _ _ hu2 hrest
    have hcol : GenSites.columnIndex (String.mk (Spec.colName n ++ rest)) =
        if (Spec.colName n ++ rest).takeWhile GenSites.isUpperAZ = [] then 1
        else ((Spec.colName n ++ rest).takeWhile GenSites.isUpperAZ).foldl
          (fun idx ch => idx * 26 + (ch.toNat - 'A'.toNat + 1)) 0 := rfl
    rw [hcol, htake, if_neg hne2]
    exact hf2

/-- C10 witness: the general parts of the theorem applied at concrete inputs — a
reference with no leading capital gives 1, and the standard name of column 27
decodes back to 27. -/
theorem c10_column_index_witness :
    GenSites.columnIndex "b7" = 1 ∧ 1 ≤ 27 ∧
      GenSites.columnIndex (String.mk (Spec.colName 27 ++ [ '3' ])) = 27 :=
  ⟨c10_column_index.2.1 "b7" (by intro c hc; simp at hc; subst hc; decide),
   by norm_num,
   c10_column_index.2.2 27 (by norm_num) [ '3' ]
     (by intro c hc; simp at hc; subst hc; decide)⟩

/-- C2 (amended): in generate_sites.load_shared_strings and
build_sites.load_shared_strings, every valid shared-string index resolves to the
concatenation of all text runs of that entry, in document order.  (build.load_strings
violates this: it flattens runs into separate entries, see the counterexample.) -/
theorem c2_shared_string_concat (sst : List (List String)) (i : Nat) (h : i < sst.length) :
    (GenSites.loadSharedStrings sst)[i]? = some (String.join sst[i]) ∧
    (BuildSites.loadSharedStrings sst)[i]? = some (String.join sst[i]) := by
  constructor <;>
    simp [GenSites.loadSharedStrings, BuildSites.loadSharedStrings,
      List.getElem?_eq_getElem h]

/-- C2 witness: on a concrete table the second entry, a two-run rich-text entry,
resolves to the joined text. -/
theorem c2_shared_string_concat_witness :
    1 < ([["ab"], ["c", "d"]] : List (List String)).length ∧
    (GenSites.loadSharedStrings [["ab"], ["c", "d"]])[1]? = some "cd" :=
  ⟨by decide, by
    have h := (c2_shared_string_concat [["ab"], ["c", "d"]] 1 (by decide)).1
    simpa using h⟩

/-- C2 counterexample: build.load_strings iterates over every t element of the
document, so the two-run entry ["a", "b"] becomes two separate entries; index 0
then resolves to "a" rather than to the run concatenation "ab", and every later
index is shifted. -/
theorem c2_cex :
    Build.loadStrings [["a", "b"], ["c"]] = ["a", "b", "c"] ∧
    (Build.loadStrings [["a", "b"], ["c"]])[0]? = some "a" ∧
    String.join ["a", "b"] = "ab" ∧ ("a" : String) ≠ "ab" :=
  ⟨by decide, by decide, by decide, by decide⟩

/-- C4 (code bug): the documented examples hold — parsing "abc" as a rating is
absent, "-42" as a review count is 42 with the sign discarded, "" is absent — but
numeric coercion is not abort-free for every input string: float("inf") parses to
an infinity, int() of an infinity raises OverflowError, and the except
(TypeError, ValueError) clauses of safe_int / to_int do not catch it, so the
exception escapes; build.parse_store likewise aborts on an infinite review value. -/
theorem c4_numeric_coercion_inf :
    GenSites.safeFloat "abc" = none ∧
    GenSites.safeInt "-42" = GenSites.IntRes.val 42 ∧
    GenSites.safeInt "" = GenSites.IntRes.absent ∧
    GenSites.safeInt "inf" = GenSites.IntRes.raises ∧
    BuildSites.toInt "inf" = GenSites.IntRes.raises ∧
    BuildSites.toInt "-42" = GenSites.IntRes.val 42 ∧
    Build.parseStore ["", "", "", "inf"] = none :=
  ⟨by decide, by decide, by decide, by decide, by decide, by decide, by decide⟩

namespace GenSites

lemma decodeCells_aligned (shared : List String) :
    ∀ (cells : List Cell) (lo : Nat) (out : List String),
      (∀ c ∈ cells, c.v.isSome) →
      List.Chain (· < ·) lo (cells.map fun c => columnIndex c.r) →
      decodeCells shared (lo + 1) cells = some out →
      (∀ c ∈ cells, columnIndex c.r ≤ lo + out.length) ∧
      (∀ p, p < out.length → (lo + 1 + p) ∉ (cells.map fun c => columnIndex c.r) →
        out.getD p "" = "") := by
  intro cells
  induction cells with
  | nil =>
    intro lo out hv hch hdec
    simp only [decodeCells, Option.some.injEq] at hdec
    subst hdec
    constructor
    · intro c hc
      simp at hc
    · intro p hp
      simp at hp
  | cons c cs ih =>
    intro lo out hv hch hdec
    obtain ⟨vt, hvt⟩ := Option.isSome_iff_exists.mp (hv c (List.mem_cons_self _ _))
    rw [List.map_cons, List.chain_cons] at hch
    obtain ⟨hlt, hch2⟩ := hch
    simp only [decodeCells] at hdec
    rw [hvt] at hdec
    dsimp only at hdec
    rcases hres : (if c.t = some "s" then (PyModel.pyInt vt).bind (PyModel.pyListGet shared)
        else some vt) with _ | val
    · rw [hres] at hdec
      simp at hdec
    · rw [hres] at hdec
      dsimp only at hdec
      have hmax : max (lo + 1) (columnIndex c.r) = columnIndex c.r :=
        Nat.max_eq_right (by omega)
      rw [hmax] at hdec
      obtain ⟨rest, hrest, hout⟩ := Option.map_eq_some'.mp hdec
      obtain ⟨ihA, ihB⟩ := ih (columnIndex c.r) rest
        (fun x hx => hv x (List.mem_cons_of_mem _ hx)) hch2 hrest
      subst hout
      have hkdef : columnIndex c.r = lo + 1 + (columnIndex c.r - (lo + 1)) := by omega
      set k := columnIndex c.r - (lo + 1) with hk
      have hlen : (List.replicate k "" ++ val :: rest).length = k + 1 + rest.length := by
        simp [List.length_append, List.length_replicate]
        omega
      constructor
      · intro c2 hc2
        rcases List.mem_cons.mp hc2 with h | h
        · subst h
          rw [hlen]
          omega
        · have := ihA c2 h
          rw [hlen]
          omega
      · intro p hp hnot
        simp only [List.map_cons, List.mem_cons] at hnot
        push_neg at hnot
        obtain ⟨hne1, hne2⟩ := hnot
        rcases lt_trichotomy p k with hpk | hpk | hpk
        · rw [List.getD_eq_getElem?_getD,
            List.getElem?_append_left (by simpa using hpk),
            List.getElem?_replicate, if_pos hpk]
          rfl
        · exfalso
          apply hne1
          omega
        · have hge : (List.replicate k (("") : String)).length ≤ p := by
            simp [List.length_replicate]
            omega
          rw [List.getD_eq_getElem?_getD, List.getElem?_append_right hge]
          have hsucc : p - (List.replicate k (("") : String)).length = (p - k - 1) + 1 := by
            simp [List.length_replicate]
            omega
          rw [hsucc, List.getElem?_cons_succ]
          have hmem : columnIndex c.r + 1 + (p - k - 1) ∉ (cs.map fun x => columnIndex x.r) := by
            have heq : columnIndex c.r + 1 + (p - k - 1) = lo + 1 + p := by omega
            rw [heq]
            exact hne2
          have := ihB (p - k - 1) (by rw [hlen] at hp; omega) hmem
          rw [List.getD_eq_getElem?_getD] at this
          exact this

end GenSites

/-- C1 (amended): for generate_sites.load_sheet_rows, on any worksheet row in which
every cell carries a v element and the cell references are in strictly increasing
column order (as in a well-formed worksheet), the decoded list reaches every
referenced column — its length is at least the highest referenced 1-based column
index — and every position whose column is referenced by no cell holds the empty
string.  (The decoders of build.py and build_sites.py never pad, and a cell without
a v element breaks alignment even in generate_sites; see the counterexample.) -/
theorem c1_row_decoder_alignment (shared : List String) (cells : List GenSites.Cell)
    (out : List String)
    (hv : ∀ c ∈ cells, c.v.isSome)
    (hasc : List.Chain (· < ·) 0 (cells.map fun c => GenSites.columnIndex c.r))
    (hdec : GenSites.decodeRow shared cells = some out) :
    (∀ c ∈ cells, GenSites.columnIndex c.r ≤ out.length) ∧
    (∀ p, p < out.length → (p + 1) ∉ (cells.map fun c => GenSites.columnIndex c.r) →
      out.getD p "" = "") := by
  have h := GenSites.decodeCells_aligned shared cells 0 out hv hasc hdec
  refine ⟨fun c hc => by simpa using h.1 c hc, fun p hp hmem => ?_⟩
  exact h.2 p hp (by simpa [Nat.add_comm] using hmem)

/-- C1 witness: a row whose only valued cell sits in column B decodes to ["", "x"]:
length 2 reaches column 2, and the untouched column 1 holds "". -/
theorem c1_row_decoder_alignment_witness :
    GenSites.decodeRow [] [⟨"B1", none, some "x"⟩] = some ["", "x"] ∧
    GenSites.columnIndex "B1" ≤ 2 ∧ (["", "x"] : List String).getD 0 "" = "" := by
  have h := c1_row_decoder_alignment [] [⟨"B1", none, some "x"⟩] ["", "x"]
    (by decide)
    (by
      simp only [List.map_cons, List.map_nil, List.chain_cons]
      exact ⟨by decide, List.Chain.nil⟩)
    (by decide)
  exact ⟨by decide, by simpa using h.1 ⟨"B1", none, some "x"⟩ (by decide),
    h.2 0 (by decide) (by decide)⟩

/-- C1 counterexample: build.load_rows does no column padding, so a row whose only
cell references column C decodes to the single-entry list ["x"], of length 1,
falsifying the claimed bound length ≥ highest referenced column index (3). -/
theorem c1_cex :
    Build.decodeCellsB [] [⟨"C1", none, some "x"⟩] = some ["x"] ∧
    GenSites.columnIndex "C1" = 3 ∧ ¬(3 ≤ (["x"] : List String).length) :=
  ⟨by decide, by decide, by decide⟩

namespace GenSites

lemma rowToStore_skip (row : List String) (h : PyModel.pyStrip (PyModel.getCol row 5) = "") :
    rowToStore row = some Option.none := by
  unfold rowToStore
  by_cases hlen : row.length < 2
  · rw [if_pos hlen]
  · rw [if_neg hlen]
    simp [h]

lemma mapRows_length : ∀ (l : List (List String)) (res : List (Option Store)),
    mapRows l = some res → res.length = l.length := by
  intro l
  induction l with
  | nil =>
    intro res h
    simp [mapRows] at h
    subst h
    rfl
  | cons r rs ih =>
    intro res h
    simp only [mapRows] at h
    rcases h1 : rowToStore r with _ | o <;> rw [h1] at h
    · simp at h
    · rcases h2 : mapRows rs with _ | os <;> rw [h2] at h
      · simp at h
      · simp only [Option.some.injEq] at h
        subst h
        simp [ih os h2]

lemma mapRows_none_mem : ∀ (l : List (List String)) (res : List (Option Store)),
    mapRows l = some res → ∀ r ∈ l, rowToStore r = some Option.none →
    Option.none ∈ res := by
  intro l
  induction l with
  | nil =>
    intro res h r hr
    simp at hr
  | cons r0 rs ih =>
    intro res h r hr hskip
    simp only [mapRows] at h
    rcases h1 : rowToStore r0 with _ | o <;> rw [h1] at h
    · simp at h
    · rcases h2 : mapRows rs with _ | os <;> rw [h2] at h
      · simp at h
      · simp only [Option.some.injEq] at h
        subst h
        rcases List.mem_cons.mp hr with hcase | hcase
        · subst hcase
          rw [h1] at hskip
          simp only [Option.some.injEq] at hskip
          subst hskip
          exact List.mem_cons_self _ _
        · exact List.mem_cons_of_mem _ (ih os h2 r hcase hskip)

lemma filterMap_id_lt : ∀ res : List (Option Store), Option.none ∈ res →
    (res.filterMap id).length < res.length := by
  intro res
  induction res with
  | nil => intro h; simp at h
  | cons o os ih =>
    intro h
    cases o with
    | none =>
      simp only [List.filterMap_cons, id]
      calc (os.filterMap id).length ≤ os.length := List.length_filterMap_le _ _
      _ < (Option.none :: os).length := by simp
    | some a =>
      have hmem : Option.none ∈ os := by
        rcases List.mem_cons.mp h with hcase | hcase
        · exact absurd hcase.symm (by simp)
        · exact hcase
      simp only [List.filterMap_cons, id]
      simpa using Nat.succ_lt_succ (ih hmem)

end GenSites

/-- C5 (amended): generate_sites.row_to_store skips every row whose name column
(index 5, stripped) is blank — it yields None, never a record — so whenever such a
data row exists and the run completes, load_stores returns strictly fewer records
than there are data rows.  (build.parse_store instead keeps such rows, substituting
the placeholder name 未命名水電行; see the counterexample.) -/
theorem c5_empty_name_excluded :
    (∀ row : List String, PyModel.pyStrip (PyModel.getCol row 5) = "" →
      GenSites.rowToStore row = some Option.none) ∧
    (∀ (rows : List (List String)) (out : List GenSites.Store),
      GenSites.loadStores rows = some out →
      (∃ r ∈ rows.drop 1, PyModel.pyStrip (PyModel.getCol r 5) = "") →
      out.length < (rows.drop 1).length) := by
  refine ⟨GenSites.rowToStore_skip, ?_⟩
  intro rows out hrun hex
  obtain ⟨r, hr, hname⟩ := hex
  unfold GenSites.loadStores at hrun
  obtain ⟨res, hres, hout⟩ := Option.map_eq_some'.mp hrun
  subst hout
  have hlen := GenSites.mapRows_length _ _ hres
  have hmem := GenSites.mapRows_none_mem _ _ hres r hr (GenSites.rowToStore_skip r hname)
  calc (res.filterMap id).length < res.length := GenSites.filterMap_id_lt res hmem
  _ = (rows.drop 1).length := hlen

/-- C5 witness: a sheet with a header and one blank-name data row yields an empty
record list — 0 records from 1 data row. -/
theorem c5_empty_name_excluded_witness :
    GenSites.rowToStore ["", "", "", "", "", ""] = some Option.none ∧
    GenSites.loadStores [[], ["", "", "", "", "", ""]] = some [] ∧ (0 : Nat) < 1 := by
  refine ⟨c5_empty_name_excluded.1 ["", "", "", "", "", ""] (by decide), by decide, ?_⟩
  have h := c5_empty_name_excluded.2 [[], ["", "", "", "", "", ""]] [] (by decide)
    ⟨["", "", "", "", "", ""], by decide, by decide⟩
  exact h


/-- C5 counterexample: build.parse_store excludes nothing — the data row whose name
column (index 1) is empty still produces a record (with the placeholder name), so
the record count equals the data-row count, not strictly less. -/
theorem c5_cex :
    (Build.parseStores [["http://x", ""]]).map List.length = some 1 ∧
    PyModel.getCol ["http://x", ""] 1 = "" ∧ ¬((1 : Nat) < 1) :=
  ⟨by decide, by decide, by decide⟩

/-- C6: the positional get helpers of row_to_store and parse_store return the empty
string for every index at or beyond the row length, and neither record mapper can
raise because of a short row: any abort requires a review-count cell that is
actually present (column 7, or column 3 in build.py) holding an inf-like (or, in
build.py, nan-like) value. -/
theorem c6_short_row_totality :
    (∀ (row : List String) (i : Nat), row.length ≤ i → PyModel.getCol row i = "") ∧
    (∀ row : List String, GenSites.rowToStore row = Option.none →
      7 < row.length ∧ ∃ b, PyModel.pyFloat (PyModel.pyStrip (PyModel.getCol row 7)) =
        some (PyModel.PyFloat.inf b)) ∧
    (∀ row : List String, Build.parseStore row = Option.none →
      3 < row.length ∧ (PyModel.pyFloat (PyModel.getCol row 3) = some PyModel.PyFloat.nan ∨
        ∃ b, PyModel.pyFloat (PyModel.getCol row 3) = some (PyModel.PyFloat.inf b))) := by
  refine ⟨fun row i h => List.getD_eq_default _ _ h, ?_, ?_⟩
  · intro row h
    unfold GenSites.rowToStore at h
    by_cases hlen : row.length < 2
    · rw [if_pos hlen] at h
      simp at h
    · rw [if_neg hlen] at h
      dsimp only at h
      by_cases hname : PyModel.pyStrip (PyModel.getCol row 5) = ""
      · rw [if_pos hname] at h
        simp at h
      · rw [if_neg hname] at h
        rcases hsi : GenSites.safeInt (PyModel.pyStrip (PyModel.getCol row 7)) with _ | n | _ <;>
          rw [hsi] at h
        · simp at h
        · simp at h
        · have hinf : ∃ b, PyModel.pyFloat (PyModel.pyStrip (PyModel.getCol row 7)) =
              some (PyModel.PyFloat.inf b) := by
            unfold GenSites.safeInt at hsi
            rcases hpf : PyModel.pyFloat (PyModel.pyStrip (PyModel.getCol row 7)) with _ | pf <;>
              rw [hpf] at hsi
            · simp at hsi
            · cases pf with
              | finite q => simp at hsi
              | inf b => exact ⟨b, rfl⟩
              | nan => simp at hsi
          refine ⟨?_, hinf⟩
          by_contra hge
          push_neg at hge
          obtain ⟨b, hpf⟩ := hinf
          have hcol7 : PyModel.getCol row 7 = "" := by
            unfold PyModel.getCol
            exact List.getD_eq_default _ _ (by omega)
          rw [hcol7] at hpf
          have : PyModel.pyFloat (PyModel.pyStrip "") = none := by decide
          rw [this] at hpf
          exact absurd hpf (by simp)
  · intro row h
    unfold Build.parseStore at h
    rcases hpf : PyModel.pyFloat (PyModel.getCol row 3) with _ | pf <;> rw [hpf] at h
    · simp at h
    · have hlen : 3 < row.length := by
        by_contra hge
        push_neg at hge
        have hcol3 : PyModel.getCol row 3 = "" := by
          unfold PyModel.getCol
          exact List.getD_eq_default _ _ (by omega)
        rw [hcol3] at hpf
        have hempty : PyModel.pyFloat "" = none := by decide
        rw [hempty] at hpf
        exact absurd hpf (by simp)
      cases pf with
      | finite q => simp at h
      | inf b => exact ⟨hlen, Or.inr ⟨b, rfl⟩⟩
      | nan => exact ⟨hlen, Or.inl rfl⟩

/-- C6 witness: an out-of-range read on a concrete short row gives "", and the only
way the generate_sites mapper aborts is a concrete row that does reach column 7
with an inf value. -/
theorem c6_short_row_totality_witness :
    PyModel.getCol ["a"] 5 = "" ∧
    7 < (["", "", "", "", "", "Shop", "", "inf"] : List String).length := by
  refine ⟨c6_short_row_totality.1 ["a"] 5 (by decide), ?_⟩
  exact (c6_short_row_totality.2.1 ["", "", "", "", "", "Shop", "", "inf"] (by decide)).1

/-- The record that generate_sites.row_to_store builds from a data row whose name
cell carries markup. -/
def c7Store : GenSites.Store :=
  { map_url := "", name := "<script>alert(1)</script>", rating := none, review_count := none,
    category := "", address := "", status := "", closing_time := "", phone := "",
    hero_image := GenSites.DEFAULT_HERO, avatar_image := GenSites.DEFAULT_AVATAR,
    review_snippet := "", slug := "script-alert-1-script" }

/-- C7 (code bug): generate_sites.render_detail interpolates store.name into the
page title and the meta description without html.escape, so markup taken from a
spreadsheet name cell reaches the rendered detail page verbatim: the raw tag
occurs as a substring of the output, which could not happen through the escaped
path, since html.escape rewrites every < and >. -/
theorem c7_detail_name_unescaped :
    GenSites.rowToStore ["", "", "", "", "", "<script>alert(1)</script>"] = some (some c7Store) ∧
    PyModel.hasSub "<script>alert(1)</script>".toList (GenSites.renderDetail c7Store).toList
      = true ∧
    PyModel.pyHtmlEscape "<script>alert(1)</script>" = "&lt;script&gt;alert(1)&lt;/script&gt;" :=
  ⟨by decide, by decide, by decide⟩

/-- C8: both embedded pipelines — build.py (shared strings, row decode, record
parse, index page, per-store pages, stylesheet) and generate_sites.py (shared
strings, aligned row decode, record mapping, stylesheet, index page, per-store
detail pages and the stores.json data dump) — are pure functions of the parsed
spreadsheet with fixed templates, so two runs over equal input data produce
equal, hence byte-identical, output documents. -/
theorem c8_pipeline_deterministic (sst sst2 : List (List String))
    (sheet sheet2 : List (List GenSites.Cell))
    (h1 : sst = sst2) (h2 : sheet = sheet2) :
    Build.pipeline sst sheet = Build.pipeline sst2 sheet2 ∧
    GenSites.pipeline sst sheet = GenSites.pipeline sst2 sheet2 := by
  subst h1
  subst h2
  exact ⟨rfl, rfl⟩

/-- C8 witness: two runs of each pipeline on the same concrete spreadsheet yield
the same output file list. -/
theorem c8_pipeline_deterministic_witness :
    Build.pipeline [["Name"]] [[⟨"A1", some "s", some "0"⟩], [⟨"A2", some "s", some "0"⟩]] =
      Build.pipeline [["Name"]] [[⟨"A1", some "s", some "0"⟩], [⟨"A2", some "s", some "0"⟩]] ∧
    GenSites.pipeline [["Name"]] [[⟨"A1", some "s", some "0"⟩], [⟨"A2", some "s", some "0"⟩]] =
      GenSites.pipeline [["Name"]] [[⟨"A1", some "s", some "0"⟩], [⟨"A2", some "s", some "0"⟩]] :=
  c8_pipeline_deterministic _ _ _ _ rfl rfl
